import Mathlib

/-!
Shallow embedding of the `AudioEngine` class of `src/services/audioEngine.ts`
(the Molecular repository).  The Web Audio graph is made explicit:

* every `AudioNode` / `AudioParam` created by the engine is an allocated
  reference (`Ref := Nat`) with a kind (`RefKind`);
* `a.connect(b)` / `a.connect(param)` become edges of an explicit edge list
  (Web Audio keeps at most one connection per (source, destination) pair, so
  insertion is deduplicating);
* `a.disconnect(b)` removes the matching edge when present (the engine wraps
  every such call in `try { ... } catch {}`, so a missing edge is silent);
* `a.disconnect()` removes every edge whose source is `a`;
* parameter automation calls (`setValueAtTime`, `setTargetAtTime`, ramps,
  `cancelScheduledValues`) are recorded verbatim in a schedule log, and the
  steady-state value a schedule converges to is tracked in `paramVals`
  (`param.value` reads are resolved against that steady value);
* `osc.start()` / `source.start()` put the source reference in `running`;
  `stop()` removes it; `stop(t)` additionally records the scheduled stop time.

The registry `Map<string, {...}>` is an association list keyed by the node id,
with `Map.get` / `Map.set` / `Map.delete` semantics (`aget` / `aset` / `adel`).
JS `Map` / `Set` iteration order is insertion order, which the association
lists preserve.

Numbers are modelled as `ℚ`; the engine performs no floating-point-specific
operations in any of the routines the claims are about.
-/

namespace Molecular

/-- Reference to an allocated Web Audio object (node or param). -/
abbrev Ref := Nat

/-- Association list `get`, mirroring `Map.get` (first binding wins). -/
def aget {κ α : Type} [DecidableEq κ] : List (κ × α) → κ → Option α
  | [], _ => none
  | (k, v) :: t, q => if k = q then some v else aget t q

/-- Association list `set`, mirroring `Map.set`: update in place when the key
exists (keeping its position), append otherwise. -/
def aset {κ α : Type} [DecidableEq κ] : List (κ × α) → κ → α → List (κ × α)
  | [], q, v => [(q, v)]
  | (k, w) :: t, q, v => if k = q then (q, v) :: t else (k, w) :: aset t q v

/-- Association list `delete`, mirroring `Map.delete`. -/
def adel {κ α : Type} [DecidableEq κ] (l : List (κ × α)) (q : κ) : List (κ × α) :=
  l.filter (fun p => p.1 ≠ q)

/-- `Set.add`: append if absent (JS `Set` keeps insertion order). -/
def sadd {α : Type} [DecidableEq α] (l : List α) (x : α) : List α :=
  if x ∈ l then l else l ++ [x]

/-- `Set.delete`. -/
def sdel {α : Type} [DecidableEq α] (l : List α) (x : α) : List α :=
  l.erase x

/-- Destination of a Web Audio connection: another node, or an `AudioParam`. -/
inductive Dest : Type
  | toNode (r : Ref)
  | toParam (r : Ref)
deriving DecidableEq, Repr

/-- One Web Audio connection. -/
structure Edge : Type where
  src : Ref
  dst : Dest
deriving DecidableEq, Repr

/-- `src.connect(dst)`: Web Audio ignores a duplicate connection. -/
def cEdge (l : List Edge) (e : Edge) : List Edge :=
  if e ∈ l then l else l ++ [e]

/-- `src.disconnect(dst)` inside `try {} catch {}`: remove when present. -/
def dEdge (l : List Edge) (e : Edge) : List Edge :=
  l.filter (fun x => x ≠ e)

/-- `src.disconnect()`: remove every connection going out of `src`. -/
def dAll (l : List Edge) (r : Ref) : List Edge :=
  l.filter (fun x => x.src ≠ r)

/-- Oscillator waveform (`OscillatorType`). -/
inductive Wave : Type
  | sine | square | sawtooth | triangle
deriving DecidableEq, Repr

/-- Biquad filter mode. -/
inductive FilterType : Type
  | lowpass | highpass | bandpass | allpass
deriving DecidableEq, Repr

/-- Kind of an allocated Web Audio object. -/
inductive RefKind : Type
  | gain
  | osc (w : Wave)
  | bufferSource
  | script
  | filter (t : FilterType)
  | delayNode
  | waveShaper
  | convolver
  | panner (x y z : ℚ)
  | param
deriving DecidableEq, Repr

/-- A named entry of a node's `params` table: a real `AudioParam` handle or a
plain `{ value: number }` holder (the `instanceof AudioParam` test
distinguishes them). -/
inductive ParamSlot : Type
  | ap (r : Ref)
  | lit (r : Ref)
deriving DecidableEq, Repr

/-- The underlying reference of a param slot. -/
def ParamSlot.ref : ParamSlot → Ref
  | .ap r => r
  | .lit r => r

/-- One registry entry of `this.nodes`. -/
structure NodeRec : Type where
  main : Ref
  input : Option Ref
  output : Ref
  params : List (String × ParamSlot)
  modGains : List (String × Ref)
  extraNodes : List (String × Ref)
  outgoingSignalConnections : List String
  isAudiblePreference : Bool
deriving DecidableEq, Repr

/-- A recorded `AudioParam` automation call. -/
inductive SchedCall : Type
  | setValueAtTime (p : Ref) (v t : ℚ)
  | setTargetAtTime (p : Ref) (v t tc : ℚ)
  | linearRampToValueAtTime (p : Ref) (v t : ℚ)
  | exponentialRampToValueAtTime (p : Ref) (v t : ℚ)
  | cancelScheduledValues (p : Ref) (t : ℚ)
deriving DecidableEq, Repr

/-- The waveshaper curve installed on a `WaveShaperNode`, identified by the
generating routine and its argument (`makeDistortionCurve(amount)` /
`makeBitcrushCurve(bits)`); the claims never inspect individual curve
samples, which involve `Math.PI`. -/
inductive CurveTag : Type
  | distortion (amount : ℚ)
  | bitcrush (bits : ℚ)
deriving DecidableEq, Repr

/-- Whole engine state (an initialized `AudioEngine`: the claims all operate
after `init()` has succeeded, so `ctx`, `masterGain`, `impactGain` and
`noiseBuffer` are present). -/
structure EngineState : Type where
  nextRef : Ref
  kinds : List (Ref × RefKind)
  nodes : List (String × NodeRec)
  edges : List Edge
  paramVals : List (Ref × ℚ)
  running : List Ref
  stopsAt : List (Ref × ℚ)
  sched : List SchedCall
  curves : List (Ref × CurveTag)
  noiseBufferCreated : Bool
  isMuted : Bool
  now : ℚ
deriving DecidableEq, Repr

/-- The master mix bus (`this.masterGain`), allocated first by `init()`. -/
def master : Ref := 0

/-- The impact-transient bus (`this.impactGain`), allocated second. -/
def impact : Ref := 1

/-- State right after `init()`: master and impact gains exist, the impact bus
feeds the master bus, the white-noise buffer has been generated, and the
engine starts muted. -/
def initState : EngineState where
  nextRef := 2
  kinds := [(master, .gain), (impact, .gain)]
  nodes := []
  edges := [⟨impact, .toNode master⟩]
  paramVals := []
  running := []
  stopsAt := []
  sched := []
  curves := []
  noiseBufferCreated := true
  isMuted := true
  now := 0

/-- Allocate a fresh Web Audio object of the given kind. -/
def alloc (s : EngineState) (k : RefKind) : Ref × EngineState :=
  (s.nextRef, { s with nextRef := s.nextRef + 1, kinds := s.kinds ++ [(s.nextRef, k)] })

/-- Steady value of a param (`param.value`). -/
def pget (s : EngineState) (r : Ref) : ℚ :=
  (aget s.paramVals r).getD 0

/-- Overwrite the steady value of a param. -/
def pset (s : EngineState) (r : Ref) (v : ℚ) : EngineState :=
  { s with paramVals := aset s.paramVals r v }

/-- `'stop' in node`: only oscillators and buffer sources expose `stop`. -/
def hasStop (kinds : List (Ref × RefKind)) (r : Ref) : Bool :=
  match aget kinds r with
  | some (.osc _) => true
  | some .bufferSource => true
  | _ => false

/-- `createNoiseBuffer` fills the buffer with `Math.random() * 2 - 1`; the
sample stream is parametrized by the random source. -/
def noiseSample (rand : Nat → ℚ) (i : Nat) : ℚ :=
  rand i * 2 - 1

/-- `createReverbBuffer` sample: `(Math.random()*2 - 1) * (1 - j/len)^2`. -/
def reverbSample (rand : Nat → ℚ) (len : ℚ) (j : Nat) : ℚ :=
  (rand j * 2 - 1) * (1 - (j : ℚ) / len) ^ 2

/-- `updateAudible(id, isAudible)` (lines 842–852): store the preference,
detach the node's output from the master bus, and re-attach it exactly when
the flag is set and the node has no outgoing signal connections. -/
def updateAudible (s : EngineState) (id : String) (isAudible : Bool) : EngineState :=
  match aget s.nodes id with
  | none => s
  | some n =>
    let s1 := { s with nodes := aset s.nodes id { n with isAudiblePreference := isAudible } }
    let s2 := { s1 with edges := dEdge s1.edges ⟨n.output, .toNode master⟩ }
    if isAudible ∧ n.outgoingSignalConnections = [] then
      { s2 with edges := cEdge s2.edges ⟨n.output, .toNode master⟩ }
    else s2

/-- Whether the node registered under `id` is currently wired to the master
mix bus. -/
def masterLinked (s : EngineState) (id : String) : Bool :=
  match aget s.nodes id with
  | some n => decide ((⟨n.output, .toNode master⟩ : Edge) ∈ s.edges)
  | none => false

/-- Generator subtype (`OscType` of `types.ts`, as consumed by the engine and
offered by the sidebar: the four standard waveforms plus `noise` and
`sample-hold`). -/
inductive OscType : Type
  | sine | square | sawtooth | triangle | noise | sampleHold
deriving DecidableEq, Repr

/-- Processor subtype (`FxType`). -/
inductive FxType : Type
  | filterLp | filterHp | filterBp | delay | reverb | distortion
  | bitcrusher | phaser | tremolo | chorus
deriving DecidableEq, Repr

/-- Shared tail of `createOscillator` (lines 488–545): wire `main → g`,
overwrite the registry entry, then `updateAudible(id, isAudible)`. -/
def finishOscillator (s : EngineState) (id : String) (mainRef g : Ref)
    (params : List (String × ParamSlot)) (isAudible : Bool) : EngineState :=
  let s1 := { s with edges := cEdge s.edges ⟨mainRef, .toNode g⟩ }
  let entry : NodeRec :=
    { main := mainRef, input := none, output := g, params := params
      modGains := [], extraNodes := [], outgoingSignalConnections := []
      isAudiblePreference := isAudible }
  let s2 := { s1 with nodes := aset s1.nodes id entry }
  updateAudible s2 id isAudible

/-- `createOscillator(id, type, freq, gain, isAudible)` (lines 488–545).
`init()` is a no-op on an initialized engine.  A gain stage `g` is created
first and set to `gain`; the main source depends on the subtype:
* `noise` — a looping `AudioBufferSourceNode` over the shared white-noise
  buffer, started immediately; `frequency` is a plain `{ value: 0 }` holder;
* `sample-hold` — a `ScriptProcessorNode` (no `stop` method) stepping a held
  random value; `frequency` is the plain `freqObj` holder;
* otherwise — a started `OscillatorNode` with the waveform of the subtype,
  exposing `frequency`, `gain` and `detune` (detune defaults to 0).
The registry entry is then **overwritten** (`Map.set`) and
`updateAudible(id, isAudible)` runs. -/
def createOscillator (s : EngineState) (id : String) (type : OscType)
    (freq gain : ℚ) (isAudible : Bool) : EngineState :=
  let (g, s1) := alloc s .gain
  let (gGain, s2) := alloc s1 .param
  let s3 := { pset s2 gGain gain with
              sched := s2.sched ++ [SchedCall.setValueAtTime gGain gain s2.now] }
  match type with
  | .noise =>
    let (src, s4) := alloc s3 .bufferSource
    let s5 := { s4 with running := s4.running ++ [src] }
    let (freqLit, s6) := alloc s5 .param
    let s7 := pset s6 freqLit 0
    finishOscillator s7 id src g [("frequency", .lit freqLit), ("gain", .ap gGain)] isAudible
  | .sampleHold =>
    let (scriptNode, s4) := alloc s3 .script
    let (freqObj, s5) := alloc s4 .param
    let s6 := pset s5 freqObj freq
    finishOscillator s6 id scriptNode g [("frequency", .lit freqObj), ("gain", .ap gGain)] isAudible
  | t =>
    let w : Wave := match t with
      | .square => .square
      | .sawtooth => .sawtooth
      | .triangle => .triangle
      | _ => .sine
    let (osc, s4) := alloc s3 (.osc w)
    let (oscFreq, s5) := alloc s4 .param
    let s6 := { pset s5 oscFreq freq with
                sched := s5.sched ++ [SchedCall.setValueAtTime oscFreq freq s5.now] }
    let (oscDetune, s7) := alloc s6 .param
    let s8 := pset s7 oscDetune 0
    let s9 := { s8 with running := s8.running ++ [osc] }
    finishOscillator s9 id osc g
      [("frequency", .ap oscFreq), ("gain", .ap gGain), ("detune", .ap oscDetune)] isAudible

/-- `createEffect(id, type)` (lines 645–792): build the subtype's primitive
sub-graph, then **overwrite** the registry entry with
`{ main: input, input, output, params, modGains: ∅, extraNodes,
outgoingSignalConnections: ∅, isAudiblePreference: true }`.
No `updateAudible` call is made: a fresh processor is not wired to the
master bus.  Parameter defaults follow the Web Audio defaults overwritten by
the explicit `.value =` assignments of the source. -/
def createEffect (s : EngineState) (id : String) (type : FxType) : EngineState :=
  let finish := fun (s' : EngineState) (inp outp : Ref)
      (params : List (String × ParamSlot)) (extraNodes : List (String × Ref)) =>
    let entry : NodeRec :=
      { main := inp, input := some inp, output := outp, params := params
        modGains := [], extraNodes := extraNodes, outgoingSignalConnections := []
        isAudiblePreference := true }
    { s' with nodes := aset s'.nodes id entry }
  match type with
  | .filterLp | .filterHp | .filterBp =>
    let ft : FilterType := match type with
      | .filterLp => .lowpass
      | .filterHp => .highpass
      | _ => .bandpass
    let (filter, s1) := alloc s (.filter ft)
    let (fFreq, s2) := alloc s1 .param
    let (fQ, s3) := alloc s2 .param
    let s4 := pset (pset s3 fFreq 1000) fQ 1
    finish s4 filter filter [("cutoff", .ap fFreq), ("resonance", .ap fQ)] []
  | .delay =>
    let (delay, s1) := alloc s .delayNode
    let (dTime, s2) := alloc s1 .param
    let (feedback, s3) := alloc s2 .gain
    let (fbGain, s4) := alloc s3 .param
    let (wet, s5) := alloc s4 .gain
    let (wetGain, s6) := alloc s5 .param
    let s7 := pset (pset (pset s6 dTime 0.5) fbGain 0.4) wetGain 0.8
    let s8 := { s7 with edges := cEdge (cEdge (cEdge s7.edges
                  ⟨delay, .toNode feedback⟩) ⟨feedback, .toNode delay⟩) ⟨delay, .toNode wet⟩ }
    finish s8 delay wet [("time", .ap dTime), ("feedback", .ap fbGain)] []
  | .distortion =>
    let (shaper, s1) := alloc s .waveShaper
    let (distOut, s2) := alloc s1 .gain
    let (distGain, s3) := alloc s2 .param
    let s4 := { s3 with edges := cEdge s3.edges ⟨shaper, .toNode distOut⟩ }
    let s5 := { s4 with curves := aset s4.curves shaper (.distortion 100) }
    let s6 := pset s5 distGain 0.8
    finish s6 shaper distOut [("amount", .ap distGain)] [("shaper", shaper)]
  | .bitcrusher =>
    let (bitShaper, s1) := alloc s .waveShaper
    let (bitOut, s2) := alloc s1 .gain
    let (bitGain, s3) := alloc s2 .param
    let s4 := { s3 with curves := aset s3.curves bitShaper (.bitcrush 8) }
    let s5 := { s4 with edges := cEdge s4.edges ⟨bitShaper, .toNode bitOut⟩ }
    let s6 := pset s5 bitGain 0.8
    finish s6 bitShaper bitOut [("bits", .ap bitGain)] [("shaper", bitShaper)]
  | .phaser =>
    let (pFilter, s1) := alloc s (.filter .allpass)
    let (pfFreq, s2) := alloc s1 .param
    let (pLfo, s3) := alloc s2 (.osc .sine)
    let (pLfoFreq, s4) := alloc s3 .param
    let (pLfoGain, s5) := alloc s4 .gain
    let (pLfoGainG, s6) := alloc s5 .param
    let s7 := pset (pset (pset s6 pfFreq 350) pLfoFreq 0.5) pLfoGainG 500
    let s8 := { s7 with edges := cEdge (cEdge s7.edges
                  ⟨pLfo, .toNode pLfoGain⟩) ⟨pLfoGain, .toParam pfFreq⟩ }
    let s9 := { s8 with running := s8.running ++ [pLfo] }
    finish s9 pFilter pFilter [("speed", .ap pLfoFreq), ("depth", .ap pLfoGainG)]
      [("lfo", pLfo), ("lfoGain", pLfoGain)]
  | .chorus =>
    let (chorusIn, s1) := alloc s .gain
    let (chorusOut, s2) := alloc s1 .gain
    let (delay, s3) := alloc s2 .delayNode
    let (dTime, s4) := alloc s3 .param
    let (lfo, s5) := alloc s4 (.osc .sine)
    let (lfoFreq, s6) := alloc s5 .param
    let (lfoGain, s7) := alloc s6 .gain
    let (lfoGainG, s8) := alloc s7 .param
    let s9 := pset (pset (pset s8 dTime 0.03) lfoFreq 1.5) lfoGainG 0.002
    let s10 := { s9 with edges := cEdge (cEdge s9.edges ⟨lfo, .toNode lfoGain⟩) ⟨lfoGain, .toParam dTime⟩ }
    let s11 := { s10 with running := s10.running ++ [lfo] }
    let s12 := { s11 with edges := cEdge (cEdge (cEdge s11.edges ⟨chorusIn, .toNode chorusOut⟩) ⟨chorusIn, .toNode delay⟩) ⟨delay, .toNode chorusOut⟩ }
    finish s12 chorusIn chorusOut [("speed", .ap lfoFreq), ("intensity", .ap lfoGainG)]
      [("lfo", lfo), ("lfoGain", lfoGain), ("delay", delay)]
  | .tremolo =>
    let (tGain, s1) := alloc s .gain
    let (tGainG, s2) := alloc s1 .param
    let (tLfo, s3) := alloc s2 (.osc .sine)
    let (tLfoFreq, s4) := alloc s3 .param
    let (tLfoGain, s5) := alloc s4 .gain
    let (tLfoGainG, s6) := alloc s5 .param
    let s7 := pset (pset (pset s6 tGainG 1) tLfoFreq 4) tLfoGainG 0.5
    let s8 := { s7 with edges := cEdge (cEdge s7.edges
                  ⟨tLfo, .toNode tLfoGain⟩) ⟨tLfoGain, .toParam tGainG⟩ }
    let s9 := { s8 with running := s8.running ++ [tLfo] }
    finish s9 tGain tGain [("rate", .ap tLfoFreq), ("intensity", .ap tLfoGainG)]
      [("lfo", tLfo), ("lfoGain", tLfoGain)]
  | .reverb =>
    let (reverb, s1) := alloc s .convolver
    let (revMix, s2) := alloc s1 .gain
    let (revGain, s3) := alloc s2 .param
    let s4 := { s3 with edges := cEdge s3.edges ⟨reverb, .toNode revMix⟩ }
    let s5 := pset s4 revGain 0.8
    finish s5 reverb revMix [("diffusion", .ap revGain)] []

/-- `connectNodes(fromId, toId)` (lines 880–898).  No-op when either id is
unknown.  When the destination has an audio input: record the edge in the
source's outgoing set, detach the source's output from the master bus,
wire `from.output → to.input` directly, and re-evaluate the **destination's**
master-link membership.  Otherwise, when the destination's `frequency` param
is a real `AudioParam`: create a scaling gain fixed at 400, wire
`from.output → modGain → to.params.frequency`, and record the gain in
`from.modGains` (`Map.set`, overwriting any previous entry).  Otherwise
nothing happens. -/
def connectNodes (s : EngineState) (fromId toId : String) : EngineState :=
  match aget s.nodes fromId, aget s.nodes toId with
  | some fromN, some toN =>
    match toN.input with
    | some inp =>
      let fromN1 := { fromN with outgoingSignalConnections := sadd fromN.outgoingSignalConnections toId }
      let s1 := { s with nodes := aset s.nodes fromId fromN1 }
      let s2 := { s1 with edges := dEdge s1.edges ⟨fromN.output, .toNode master⟩ }
      let s3 := { s2 with edges := cEdge s2.edges ⟨fromN.output, .toNode inp⟩ }
      updateAudible s3 toId toN.isAudiblePreference
    | none =>
      match aget toN.params "frequency" with
      | some (.ap p) =>
        let (modGain, s1) := alloc s .gain
        let (modGainG, s2) := alloc s1 .param
        let s3 := { pset s2 modGainG 400 with
                    sched := s2.sched ++ [SchedCall.setValueAtTime modGainG 400 s2.now] }
        let s4 := { s3 with edges := cEdge s3.edges ⟨fromN.output, .toNode modGain⟩ }
        let s5 := { s4 with edges := cEdge s4.edges ⟨modGain, .toParam p⟩ }
        { s5 with nodes := aset s5.nodes fromId { fromN with modGains := aset fromN.modGains toId modGain } }
      | _ => s
  | _, _ => s

/-- `disconnectNodes(fromId, toId)` (lines 900–916).  No-op when either id is
unknown.  Audio-input destination: drop the outgoing record, sever
`from.output → to.input`, and re-evaluate the **source's** master-link
membership.  Otherwise: when a scaling gain is recorded for the target,
sever `from.output → modGain` and, if that connection actually existed, all
of the gain's own connections (the two `disconnect`s share one `try` block),
then drop the map entry. -/
def disconnectNodes (s : EngineState) (fromId toId : String) : EngineState :=
  match aget s.nodes fromId, aget s.nodes toId with
  | some fromN, some toN =>
    match toN.input with
    | some inp =>
      let fromN1 := { fromN with outgoingSignalConnections := sdel fromN.outgoingSignalConnections toId }
      let s1 := { s with nodes := aset s.nodes fromId fromN1 }
      let s2 := { s1 with edges := dEdge s1.edges ⟨fromN.output, .toNode inp⟩ }
      updateAudible s2 fromId fromN.isAudiblePreference
    | none =>
      match aget fromN.modGains toId with
      | some modGain =>
        let s1 :=
          if (⟨fromN.output, .toNode modGain⟩ : Edge) ∈ s.edges then
            { s with edges := dAll (dEdge s.edges ⟨fromN.output, .toNode modGain⟩) modGain }
          else s
        { s1 with nodes := aset s1.nodes fromId { fromN with modGains := adel fromN.modGains toId } }
      | none => s
  | _, _ => s

/-- `removeNode(id)` (lines 918–931): sever every connection **out of** the
node's output and input references, stop the owned LFO (when present) and
the main source (when it has a `stop` method), then delete the registry
entry.  Nothing else is touched: connections *into* the node and other
nodes' records of edges toward it survive. -/
def removeNode (s : EngineState) (id : String) : EngineState :=
  match aget s.nodes id with
  | none => s
  | some n =>
    let s1 := { s with edges := dAll s.edges n.output }
    let s2 := match n.input with
      | some inp => { s1 with edges := dAll s1.edges inp }
      | none => s1
    let s3 := match aget n.extraNodes "lfo" with
      | some lfo => { s2 with running := s2.running.erase lfo }
      | none => s2
    let s4 := if hasStop s3.kinds n.main then { s3 with running := s3.running.erase n.main } else s3
    { s4 with nodes := adel s4.nodes id }

/-- `updateParam(id, paramName, value)` (lines 854–878): unknown id is a
no-op; `"distortionCurve"` / `"bitCurve"` regenerate the waveshaper curve of
the `shaper` extra node when present; otherwise an `AudioParam` entry gets a
smoothed `setTargetAtTime(value, now, 0.05)` and a literal holder is set
directly; an unknown name does nothing. -/
def updateParam (s : EngineState) (id paramName : String) (value : ℚ) : EngineState :=
  match aget s.nodes id with
  | none => s
  | some n =>
    if paramName = "distortionCurve" then
      match aget n.extraNodes "shaper" with
      | some shaper => { s with curves := aset s.curves shaper (.distortion value) }
      | none => s
    else if paramName = "bitCurve" then
      match aget n.extraNodes "shaper" with
      | some shaper => { s with curves := aset s.curves shaper (.bitcrush value) }
      | none => s
    else
      match aget n.params paramName with
      | some (.ap p) =>
        { pset s p value with sched := s.sched ++ [SchedCall.setTargetAtTime p value s.now 0.05] }
      | some (.lit p) => pset s p value
      | none => s

/-- `updateOscType(id, type)` (lines 623–643): snapshot the current
frequency/gain values and the audible flag, silence the old main source
(disconnect + stop), rebuild via `createOscillator` under the same id, then
copy the old `modGains` entries (re-wiring the new output into each scaling
gain) and the old outgoing signal targets (re-wiring the new output into
each target's input).  The node's master-link membership is **not**
re-evaluated after the outgoing set is repopulated. -/
def updateOscType (s : EngineState) (id : String) (type : OscType) : EngineState :=
  match aget s.nodes id with
  | none => s
  | some node =>
    let currentFreq := match aget node.params "frequency" with
      | some slot => pget s slot.ref
      | none => 440
    let currentGain := match aget node.params "gain" with
      | some slot => pget s slot.ref
      | none => 0.1
    let currentAudible := node.isAudiblePreference
    let s1 := { s with edges := dAll s.edges node.main }
    let s2 := if hasStop s1.kinds node.main then { s1 with running := s1.running.erase node.main } else s1
    let s3 := createOscillator s2 id type currentFreq currentGain currentAudible
    let s4 := node.modGains.foldl (fun acc tm =>
      match aget acc.nodes id with
      | some nn =>
        let acc1 := { acc with nodes := aset acc.nodes id { nn with modGains := aset nn.modGains tm.1 tm.2 } }
        { acc1 with edges := cEdge acc1.edges ⟨nn.output, .toNode tm.2⟩ }
      | none => acc) s3
    node.outgoingSignalConnections.foldl (fun acc tid =>
      match aget acc.nodes id with
      | some nn =>
        let acc1 := { acc with nodes := aset acc.nodes id { nn with outgoingSignalConnections := sadd nn.outgoingSignalConnections tid } }
        match aget acc1.nodes tid with
        | some target =>
          match target.input with
          | some inp => { acc1 with edges := cEdge acc1.edges ⟨nn.output, .toNode inp⟩ }
          | none => acc1
        | none => acc1
      | none => acc) s4

/-- `updateEffectType(id, type)` (lines 794–805): sever the connections out
of the old output and input, stop the owned LFO when present, and rebuild
from scratch via `createEffect`.  Nothing is snapshotted and no prior edge
is reattached. -/
def updateEffectType (s : EngineState) (id : String) (type : FxType) : EngineState :=
  match aget s.nodes id with
  | none => s
  | some old =>
    let s1 := { s with edges := dAll s.edges old.output }
    let s2 := match old.input with
      | some inp => { s1 with edges := dAll s1.edges inp }
      | none => s1
    let s3 := match aget old.extraNodes "lfo" with
      | some lfo => { s2 with running := s2.running.erase lfo }
      | none => s2
    createEffect s3 id type

/-- The fields of `ImpactSettings` read by `triggerDisturbance` (the
`types.ts` definition is not among the provided sources; these are the three
flags the engine consumes). -/
structure ImpactSettings : Type where
  sparkTransients : Bool
  toneSpike : Bool
  paramFlutter : Bool
deriving DecidableEq, Repr

/-- `triggerDisturbance(id, velocityY, pan, settings)` (lines 550–621).
Unknown id: no-op.  With `sparkTransients`: an equal-power panner positioned
from `pan` feeds the impact bus; a looping-buffer noise burst runs through a
highpass filter (cutoff 2000 when falling, 5000 otherwise) and an envelope
into the panner, started at `now` and stopped at `now + 0.1`; a sine "ping"
chirps from 800 (falling) or 2500 down to a tenth of that through its own
envelope, likewise stopped at `now + 0.1`.  With `toneSpike` and a real
`detune` param: a `-velocityY * 200` cents excursion is scheduled, decaying
back to 0.  With `paramFlutter` and a real `cutoff` param: a
direction-dependent excursion from the present value is scheduled, decaying
back to it. -/
def triggerDisturbance (s : EngineState) (id : String) (velocityY pan : ℚ)
    (settings : ImpactSettings) : EngineState :=
  match aget s.nodes id with
  | none => s
  | some node =>
    let now := s.now
    let isFalling : Bool := decide (velocityY > 0)
    let intensity := min 1 (|velocityY| / 10)
    let s1 :=
      if settings.sparkTransients then
        let (panner, t1) := alloc s (.panner pan 0 (1 - |pan|))
        let t2 := { t1 with edges := cEdge t1.edges ⟨panner, .toNode impact⟩ }
        let t3 :=
          if t2.noiseBufferCreated then
            let (noiseSource, u1) := alloc t2 .bufferSource
            let (noiseFilter, u2) := alloc u1 (.filter .highpass)
            let (nfFreq, u3) := alloc u2 .param
            let (noiseEnv, u4) := alloc u3 .gain
            let (neGain, u5) := alloc u4 .param
            let cutoffHz : ℚ := if isFalling then 2000 else 5000
            let u6 := { pset u5 nfFreq cutoffHz with
                        sched := u5.sched ++ [SchedCall.setValueAtTime nfFreq cutoffHz now] }
            let u7 := { pset u6 neGain 0.001 with
                        sched := u6.sched ++ [SchedCall.setValueAtTime neGain 0 now, SchedCall.linearRampToValueAtTime neGain (0.3 * intensity) (now + 0.005), SchedCall.exponentialRampToValueAtTime neGain 0.001 (now + 0.05)] }
            let u8 := { u7 with edges := cEdge (cEdge (cEdge u7.edges ⟨noiseSource, .toNode noiseFilter⟩) ⟨noiseFilter, .toNode noiseEnv⟩) ⟨noiseEnv, .toNode panner⟩ }
            { u8 with running := u8.running ++ [noiseSource],
                      stopsAt := u8.stopsAt ++ [(noiseSource, now + 0.1)] }
          else t2
        let (ping, t4) := alloc t3 (.osc .sine)
        let (pingFreq, t5) := alloc t4 .param
        let (pingEnv, t6) := alloc t5 .gain
        let (peGain, t7) := alloc t6 .param
        let startFreq : ℚ := if isFalling then 800 else 2500
        let t8 := { pset t7 pingFreq (startFreq * 0.1) with
                    sched := t7.sched ++ [SchedCall.setValueAtTime pingFreq startFreq now, SchedCall.exponentialRampToValueAtTime pingFreq (startFreq * 0.1) (now + 0.04)] }
        let t9 := { pset t8 peGain 0.001 with
                    sched := t8.sched ++ [SchedCall.setValueAtTime peGain 0 now, SchedCall.linearRampToValueAtTime peGain (0.2 * intensity) (now + 0.002), SchedCall.exponentialRampToValueAtTime peGain 0.001 (now + 0.08)] }
        let t10 := { t9 with edges := cEdge (cEdge t9.edges ⟨ping, .toNode pingEnv⟩) ⟨pingEnv, .toNode panner⟩ }
        { t10 with running := t10.running ++ [ping],
                   stopsAt := t10.stopsAt ++ [(ping, now + 0.1)] }
      else s
    let s2 :=
      if settings.toneSpike then
        match aget node.params "detune" with
        | some (.ap p) =>
          let centsShift := -velocityY * 200
          { pset (pset s1 p centsShift) p 0 with
            sched := s1.sched ++ [SchedCall.cancelScheduledValues p now, SchedCall.setTargetAtTime p centsShift now 0.01, SchedCall.setTargetAtTime p 0 (now + 0.05) 0.2] }
        | _ => s1
      else s1
    if settings.paramFlutter then
      match aget node.params "cutoff" with
      | some (.ap p) =>
        let base := pget s2 p
        let shift := if isFalling then -base * 0.4 else base * 0.6
        { pset (pset s2 p (base + shift)) p base with
          sched := s2.sched ++ [SchedCall.cancelScheduledValues p now, SchedCall.setTargetAtTime p (base + shift) now 0.01, SchedCall.setTargetAtTime p base (now + 0.04) 0.15] }
      | _ => s2
    else s2

/-! ### Derived observers -/

/-- Output reference of a registered node (0 when the id is unknown). -/
def nodeOutput (s : EngineState) (id : String) : Ref :=
  ((aget s.nodes id).map (fun n => n.output)).getD 0

/-- Input reference of a registered node. -/
def nodeInput (s : EngineState) (id : String) : Option Ref :=
  (aget s.nodes id).bind (fun n => n.input)

/-- Outgoing signal targets of a registered node. -/
def nodeOutgoing (s : EngineState) (id : String) : List String :=
  ((aget s.nodes id).map (fun n => n.outgoingSignalConnections)).getD []

/-- Modulation-scaling map of a registered node. -/
def nodeModGains (s : EngineState) (id : String) : List (String × Ref) :=
  ((aget s.nodes id).map (fun n => n.modGains)).getD []

/-- Audible preference flag of a registered node. -/
def nodeAudible (s : EngineState) (id : String) : Bool :=
  ((aget s.nodes id).map (fun n => n.isAudiblePreference)).getD false

/-- The references of the params table of a registered node. -/
def nodeParamRefs (s : EngineState) (id : String) : List Ref :=
  ((aget s.nodes id).map (fun n => n.params.map (fun q => q.2.ref))).getD []

/-- Whether an edge drives some param of the node registered under `id`
(this is how a modulation-scaling element reaches its target). -/
def drivesParamOf (s : EngineState) (id : String) (e : Edge) : Prop :=
  match e.dst with
  | .toParam p => p ∈ nodeParamRefs s id
  | .toNode _ => False

instance (s : EngineState) (id : String) (e : Edge) : Decidable (drivesParamOf s id e) := by
  unfold drivesParamOf
  match e.dst with
  | .toParam p => exact inferInstanceAs (Decidable (p ∈ nodeParamRefs s id))
  | .toNode _ => exact inferInstanceAs (Decidable False)

/-- The reference a destination points at. -/
def Dest.ref : Dest → Ref
  | .toNode r => r
  | .toParam r => r

/-- Every reference appearing in the connection graph has been allocated
(holds for every state the engine actually reaches; concrete instances are
checked by `decide`). -/
def refsBounded (s : EngineState) : Prop :=
  ∀ e ∈ s.edges, e.src < s.nextRef ∧ e.dst.ref < s.nextRef

instance (s : EngineState) : Decidable (refsBounded s) :=
  List.decidableBAll _ s.edges

/-! ### Concrete scenario states (used by counterexamples and witnesses) -/

/-- §8 scenario: Generator G1 (sine, audible). -/
def sceneG1 : EngineState := createOscillator initState "g1" .sine 440 0.1 true

/-- §8 scenario: Processor P1 (lowpass) next to G1. -/
def sceneP1 : EngineState := createEffect sceneG1 "p1" .filterLp

/-- §8 scenario after `connect(G1, P1)`. -/
def sceneConn : EngineState := connectNodes sceneP1 "g1" "p1"

/-- §8 scenario after `connect` then `disconnect`. -/
def sceneDisc : EngineState := disconnectNodes sceneConn "g1" "p1"

/-- Generator G2 (sine, audible = false) next to G1 and P1. -/
def sceneG2 : EngineState := createOscillator sceneP1 "g2" .sine 220 0.1 false

/-- `connect(G2, P1)` with a non-audible source. -/
def sceneC2 : EngineState := connectNodes sceneG2 "g2" "p1"

/-- Two processors: a delay `a` and a lowpass `b`. -/
def sceneFx : EngineState := createEffect (createEffect initState "a" .delay) "b" .filterLp

/-- `connect(a, b)` then `disconnect(a, b)` on the two processors. -/
def sceneFxPair : EngineState := disconnectNodes (connectNodes sceneFx "a" "b") "a" "b"

/-- Toggling G1's audible flag off while G1 → P1 is connected. -/
def sceneToggle : EngineState := updateAudible sceneConn "g1" false

/-- Removing P1 while G1 → P1 is connected. -/
def sceneRemove : EngineState := removeNode sceneConn "p1"

/-- `connect(a, b)` on the two processors, then re-typing `a` to reverb. -/
def sceneFxSwap : EngineState := updateEffectType (connectNodes sceneFx "a" "b") "a" .reverb

/-- Re-typing G1 to square while G1 → P1 is connected. -/
def sceneOscRetype : EngineState := updateOscType sceneConn "g1" .square

/-- A generator `g` with an audio edge to filter `p`, a modulation edge to
generator `h`, and an incoming modulation edge from generator `s`. -/
def sceneRich : EngineState :=
  let b0 := createOscillator initState "s" .sine 5 0.2 false
  let b1 := createOscillator b0 "g" .sine 330 0.1 true
  let b2 := createOscillator b1 "h" .sine 440 0.1 true
  let b3 := createEffect b2 "p" .filterLp
  connectNodes (connectNodes (connectNodes b3 "g" "p") "g" "h") "s" "g"

/-- `sceneRich` after re-typing `g` to square. -/
def sceneRichSwap : EngineState := updateOscType sceneRich "g" .square

/-- A noise generator. -/
def sceneNoise : EngineState := createOscillator initState "n" .noise 0 0.3 true

/-- Creating a second oscillator under G1's id (registry overwrite). -/
def sceneOverwrite : EngineState := createOscillator sceneG1 "g1" .square 100 0.2 true

/-- A disturbance on G1 with every settings flag enabled. -/
def sceneImpact : EngineState := triggerDisturbance sceneG1 "g1" 5 (1/2) ⟨true, true, true⟩

/-- The same disturbance with upward (negative) velocity. -/
def sceneImpactUp : EngineState := triggerDisturbance sceneG1 "g1" (-5) (1/2) ⟨true, true, true⟩

/-- A disturbance on the lowpass processor P1 (which has a `cutoff` param but
no `detune`). -/
def sceneImpactFx : EngineState := triggerDisturbance sceneP1 "p1" 5 0 ⟨true, true, true⟩

/-! ### Lemmas about the primitive map / set / edge operations -/

theorem aget_aset {κ α : Type} [DecidableEq κ] (l : List (κ × α)) (k q : κ) (v : α) :
    aget (aset l k v) q = if k = q then some v else aget l q := by
  induction l with
  | nil => simp [aget, aset]
  | cons h t ih =>
    obtain ⟨k', v'⟩ := h
    by_cases hk : k' = k
    · subst hk
      by_cases hq : k' = q <;> simp [aget, aset, hq]
    · by_cases hq : k' = q
      · subst hq
        simp [aget, aset, hk, Ne.symm hk]
      · simp [aget, aset, hk, hq, ih]

theorem aget_aset_self {κ α : Type} [DecidableEq κ] (l : List (κ × α)) (k : κ) (v : α) :
    aget (aset l k v) k = some v := by
  simp [aget_aset]

theorem aget_aset_ne {κ α : Type} [DecidableEq κ] (l : List (κ × α)) {k q : κ} (v : α)
    (h : k ≠ q) : aget (aset l k v) q = aget l q := by
  simp [aget_aset, h]

theorem aset_eq_of_aget {κ α : Type} [DecidableEq κ] {l : List (κ × α)} {k : κ} {v : α}
    (h : aget l k = some v) : aset l k v = l := by
  induction l with
  | nil => simp [aget] at h
  | cons p t ih =>
    obtain ⟨k', v'⟩ := p
    by_cases hk : k' = k
    · subst hk
      simp [aget] at h
      simp [aset, h]
    · simp [aget, hk] at h
      simp [aset, hk, ih h]

theorem aget_eq_none_iff {κ α : Type} [DecidableEq κ] (l : List (κ × α)) (k : κ) :
    aget l k = none ↔ ∀ p ∈ l, p.1 ≠ k := by
  induction l with
  | nil => simp [aget]
  | cons p t ih =>
    obtain ⟨k', v'⟩ := p
    by_cases hk : k' = k <;> simp [aget, hk, ih]

theorem aset_of_aget_none {κ α : Type} [DecidableEq κ] {l : List (κ × α)} {k : κ}
    (h : aget l k = none) (v : α) : aset l k v = l ++ [(k, v)] := by
  induction l with
  | nil => simp [aset]
  | cons p t ih =>
    obtain ⟨k', v'⟩ := p
    by_cases hk : k' = k
    · simp [aget, hk] at h
    · simp [aget, hk] at h
      simp [aset, hk, ih h]

theorem adel_cons {κ α : Type} [DecidableEq κ] (k' : κ) (v' : α) (t : List (κ × α)) (k : κ) :
    adel ((k', v') :: t) k = if k' = k then adel t k else (k', v') :: adel t k := by
  by_cases h : k' = k <;> simp [adel, List.filter_cons, h]

theorem adel_append_of_aget_none {κ α : Type} [DecidableEq κ] {l : List (κ × α)} {k : κ}
    (h : aget l k = none) (v : α) : adel (l ++ [(k, v)]) k = l := by
  induction l with
  | nil => simp [adel]
  | cons p t ih =>
    obtain ⟨k', v'⟩ := p
    have hk : k' ≠ k := by
      intro hc
      subst hc
      simp [aget] at h
    have ht : aget t k = none := by simpa [aget, hk] using h
    rw [List.cons_append, adel_cons]
    simp [hk, ih ht]

theorem adel_of_aget_none {κ α : Type} [DecidableEq κ] {l : List (κ × α)} {k : κ}
    (h : aget l k = none) : adel l k = l := by
  induction l with
  | nil => rfl
  | cons p t ih =>
    obtain ⟨k', v'⟩ := p
    have hk : k' ≠ k := by
      intro hc
      subst hc
      simp [aget] at h
    have ht : aget t k = none := by simpa [aget, hk] using h
    rw [adel_cons]
    simp [hk, ih ht]

theorem aget_adel {κ α : Type} [DecidableEq κ] (l : List (κ × α)) (k q : κ) :
    aget (adel l k) q = if k = q then none else aget l q := by
  induction l with
  | nil => by_cases h : k = q <;> simp [aget, adel, h]
  | cons p t ih =>
    obtain ⟨k', v'⟩ := p
    rw [adel_cons]
    by_cases hk : k' = k
    · subst hk
      by_cases hq : k' = q
      · subst hq
        simp [ih]
      · simp [aget, hq, ih]
    · by_cases hq : k' = q
      · subst hq
        have hkq : k ≠ k' := fun hc => hk hc.symm
        simp [aget, hk, hkq, ih]
      · simp [aget, hk, hq, ih]

theorem sdel_sadd {α : Type} [DecidableEq α] {l : List α} {x : α} (h : x ∉ l) :
    sdel (sadd l x) x = l := by
  unfold sadd sdel
  simp [h]
  induction l with
  | nil => simp
  | cons a t ih =>
    have hat : x ≠ a := fun hc => h (hc ▸ List.mem_cons_self a t)
    have hxt : x ∉ t := fun hc => h (List.mem_cons_of_mem a hc)
    simp [List.erase_cons, Ne.symm hat, ih hxt]

theorem mem_cEdge {l : List Edge} {e e' : Edge} :
    e' ∈ cEdge l e ↔ e' ∈ l ∨ e' = e := by
  unfold cEdge
  by_cases h : e ∈ l
  · simp [h]
    intro he
    exact he ▸ h
  · simp [h]

theorem mem_dEdge {l : List Edge} {e e' : Edge} :
    e' ∈ dEdge l e ↔ e' ∈ l ∧ e' ≠ e := by
  unfold dEdge
  simp

theorem mem_dAll {l : List Edge} {r : Ref} {e' : Edge} :
    e' ∈ dAll l r ↔ e' ∈ l ∧ e'.src ≠ r := by
  unfold dAll
  simp

theorem cEdge_of_not_mem {l : List Edge} {e : Edge} (h : e ∉ l) :
    cEdge l e = l ++ [e] := by
  simp [cEdge, h]

theorem dEdge_cons (x : Edge) (t : List Edge) (e : Edge) :
    dEdge (x :: t) e = if x = e then dEdge t e else x :: dEdge t e := by
  by_cases h : x = e <;> simp [dEdge, List.filter_cons, h]

theorem dEdge_append_of_not_mem {l : List Edge} {e : Edge} (h : e ∉ l) :
    dEdge (l ++ [e]) e = l := by
  induction l with
  | nil => simp [dEdge]
  | cons x t ih =>
    have hx : x ≠ e := fun hc => h (hc ▸ List.mem_cons_self x t)
    have ht : e ∉ t := fun hc => h (List.mem_cons_of_mem x hc)
    rw [List.cons_append, dEdge_cons]
    simp [hx, ih ht]

theorem dEdge_of_not_mem {l : List Edge} {e : Edge} (h : e ∉ l) :
    dEdge l e = l := by
  induction l with
  | nil => rfl
  | cons x t ih =>
    have hx : x ≠ e := fun hc => h (hc ▸ List.mem_cons_self x t)
    have ht : e ∉ t := fun hc => h (List.mem_cons_of_mem x hc)
    rw [dEdge_cons]
    simp [hx, ih ht]

theorem dAll_of_src_ne {l : List Edge} {r : Ref} (h : ∀ e ∈ l, e.src ≠ r) :
    dAll l r = l :=
  List.filter_eq_self.mpr (fun x hx => by simpa using h x hx)

theorem dEdge_append (l1 l2 : List Edge) (e : Edge) :
    dEdge (l1 ++ l2) e = dEdge l1 e ++ dEdge l2 e := by
  simp [dEdge, List.filter_append]

theorem dAll_append (l1 l2 : List Edge) (r : Ref) :
    dAll (l1 ++ l2) r = dAll l1 r ++ dAll l2 r := by
  simp [dAll, List.filter_append]

theorem mem_cEdge_of_ne {l : List Edge} {e e' : Edge} (h : e' ≠ e) :
    e' ∈ cEdge l e ↔ e' ∈ l := by
  simp [mem_cEdge, h]

theorem mem_dEdge_of_ne {l : List Edge} {e e' : Edge} (h : e' ≠ e) :
    e' ∈ dEdge l e ↔ e' ∈ l := by
  simp [mem_dEdge, h]

theorem mem_masterToggle_of_ne {l : List Edge} {em e' : Edge} (c : Prop) [Decidable c]
    (h : e' ≠ em) :
    (e' ∈ if c then cEdge (dEdge l em) em else dEdge l em) ↔ e' ∈ l := by
  by_cases hc : c <;> simp [hc, mem_cEdge_of_ne h, mem_dEdge_of_ne h]

/-! ### Characterizations of the engine operations -/

theorem updateAudible_eq (s : EngineState) (id : String) (v : Bool) (n : NodeRec)
    (h : aget s.nodes id = some n) :
    updateAudible s id v =
      { s with nodes := aset s.nodes id { n with isAudiblePreference := v },
               edges :=
                 if v = true ∧ n.outgoingSignalConnections = [] then
                   cEdge (dEdge s.edges ⟨n.output, .toNode master⟩) ⟨n.output, .toNode master⟩
                 else dEdge s.edges ⟨n.output, .toNode master⟩ } := by
  unfold updateAudible
  rw [h]
  by_cases hc : v = true ∧ n.outgoingSignalConnections = [] <;> simp [hc]

/-! ### Claim C1 -/

/-- **C1, counterexample.**  The claimed invariant
`masterLinked(n) == n.audible && outgoingCount(n) == 0` does not hold after
every mutating operation: a freshly created processor (`createEffect`) has
`audible = true` and no outgoing edges yet is not wired to the master bus,
and re-typing a connected generator (`updateOscType`) leaves it wired to the
master bus even though it has an outgoing edge (so "exactly one of
master-linked / chained / idle" also fails: `g1` is both master-linked and
chained). -/
theorem C1_counterexample :
    (nodeAudible sceneP1 "p1" = true ∧ nodeOutgoing sceneP1 "p1" = [] ∧
      masterLinked sceneP1 "p1" = false) ∧
    (masterLinked sceneOscRetype "g1" = true ∧ nodeOutgoing sceneOscRetype "g1" = ["p1"] ∧
      (⟨nodeOutput sceneOscRetype "g1", .toNode (nodeInput sceneOscRetype "p1").iget⟩ : Edge)
        ∈ sceneOscRetype.edges) := by
  decide

/-- **C1, amended.**  The invariant holds exactly for the node whose
master-link membership `updateAudible` re-evaluates (which `createOscillator`,
`connectNodes` and `disconnectNodes` invoke for the node they affect): right
after `updateAudible(id, v)` the node registered at `id` has audible flag `v`,
its outgoing set is unchanged, and it is master-linked iff `v` is set and the
outgoing set is empty.  (Freshly created processors and re-typed nodes are
not re-evaluated, per the counterexample.) -/
theorem C1_amended (s : EngineState) (id : String) (v : Bool)
    (h : (aget s.nodes id).isSome) :
    nodeAudible (updateAudible s id v) id = v ∧
    nodeOutgoing (updateAudible s id v) id = nodeOutgoing s id ∧
    masterLinked (updateAudible s id v) id =
      (v && (nodeOutgoing (updateAudible s id v) id).isEmpty) := by
  obtain ⟨n, hn⟩ := Option.isSome_iff_exists.mp h
  rw [updateAudible_eq s id v n hn]
  refine ⟨?_, ?_, ?_⟩
  · simp [nodeAudible, aget_aset_self]
  · simp [nodeOutgoing, aget_aset_self, hn]
  · by_cases hc : v = true ∧ n.outgoingSignalConnections = []
    · simp [masterLinked, nodeOutgoing, aget_aset_self, hc, mem_cEdge]
    · have hmem : (⟨n.output, .toNode master⟩ : Edge)
          ∉ dEdge s.edges ⟨n.output, .toNode master⟩ := by
        simp [mem_dEdge]
      rcases Decidable.not_and_iff_or_not.mp hc with hv | ho
      · simp [masterLinked, nodeOutgoing, aget_aset_self, hc, hmem,
          Bool.not_eq_true] at hv ⊢
        simp [hv]
      · simp [masterLinked, nodeOutgoing, aget_aset_self, hc, hmem]
        intro hv
        simp [List.isEmpty_iff, ho]

/-- Witness for `C1_amended` at a concrete input. -/
theorem C1_amended_witness :
    (aget sceneConn.nodes "g1").isSome = true ∧
    (nodeAudible (updateAudible sceneConn "g1" false) "g1" = false ∧
      nodeOutgoing (updateAudible sceneConn "g1" false) "g1" = nodeOutgoing sceneConn "g1" ∧
      masterLinked (updateAudible sceneConn "g1" false) "g1" =
        (false && (nodeOutgoing (updateAudible sceneConn "g1" false) "g1").isEmpty)) :=
  ⟨by decide, C1_amended sceneConn "g1" false (by decide)⟩

theorem connectNodes_input_eq (s : EngineState) (fromId toId : String)
    (fromN toN : NodeRec) (inp : Ref)
    (hfn : aget s.nodes fromId = some fromN)
    (htn : aget s.nodes toId = some toN)
    (hti : toN.input = some inp) :
    connectNodes s fromId toId =
      updateAudible
        { s with
          nodes := aset s.nodes fromId
            { fromN with outgoingSignalConnections := sadd fromN.outgoingSignalConnections toId },
          edges := cEdge (dEdge s.edges ⟨fromN.output, .toNode master⟩)
            ⟨fromN.output, .toNode inp⟩ }
        toId toN.isAudiblePreference := by
  simp only [connectNodes, hfn, htn, hti]

/-! ### Claim C2 -/

/-- **C2, counterexample.**  `connect(G2, P1)` with `G2.audible = false` and
`P1` exposing an audio input *does* make a direct audio wire from `G2`'s
output to `P1`'s input, creates no modulation-scaling element, and targets no
parameter of `P1`: the claimed audible-dependent primary-parameter policy
does not exist in the code. -/
theorem C2_counterexample :
    nodeAudible sceneG2 "g2" = false ∧
    (⟨nodeOutput sceneC2 "g2", .toNode (nodeInput sceneC2 "p1").iget⟩ : Edge) ∈ sceneC2.edges ∧
    nodeModGains sceneC2 "g2" = [] ∧
    sceneC2.nextRef = sceneG2.nextRef ∧
    (∀ e ∈ sceneC2.edges, ¬ drivesParamOf sceneC2 "p1" e) := by
  decide

/-- **C2, amended.**  Whenever the destination of `connect(fromId, toId)`
exposes an audio input, the source's output is wired directly into that
input **regardless of the source's audible flag**; no modulation-scaling
element is created (nothing is allocated, the source's `modGains` map is
unchanged, and no edge driving an `AudioParam` is added).  A scaling element
into `to.params.frequency` (fixed gain 400) is created only when the
destination has **no** audio input. -/
theorem C2_amended (s : EngineState) (fromId toId : String) (inp : Ref)
    (hne : fromId ≠ toId)
    (hf : (aget s.nodes fromId).isSome)
    (ht : nodeInput s toId = some inp)
    (him : inp ≠ master) :
    (⟨nodeOutput s fromId, .toNode inp⟩ : Edge) ∈ (connectNodes s fromId toId).edges ∧
    (connectNodes s fromId toId).nextRef = s.nextRef ∧
    nodeModGains (connectNodes s fromId toId) fromId = nodeModGains s fromId ∧
    (∀ e ∈ (connectNodes s fromId toId).edges, (∃ p, e.dst = Dest.toParam p) → e ∈ s.edges) := by
  obtain ⟨fromN, hfn⟩ := Option.isSome_iff_exists.mp hf
  obtain ⟨toN, htn, hti⟩ : ∃ toN, aget s.nodes toId = some toN ∧ toN.input = some inp := by
    unfold nodeInput at ht
    cases htn : aget s.nodes toId with
    | none => rw [htn] at ht; simp at ht
    | some toN => rw [htn] at ht; exact ⟨toN, rfl, by simpa using ht⟩
  have hta : aget (aset s.nodes fromId
      { fromN with outgoingSignalConnections := sadd fromN.outgoingSignalConnections toId })
      toId = some toN := by rw [aget_aset_ne _ _ hne, htn]
  rw [connectNodes_input_eq s fromId toId fromN toN inp hfn htn hti]
  rw [updateAudible_eq _ toId _ toN hta]
  refine ⟨?_, ?_, ?_, ?_⟩
  · have hne' : (⟨fromN.output, .toNode inp⟩ : Edge) ≠ ⟨toN.output, .toNode master⟩ := by
      intro hc
      exact him (congrArg (fun e => e.dst.ref) hc)
    have h1 : (⟨fromN.output, .toNode inp⟩ : Edge)
        ∈ cEdge (dEdge s.edges ⟨fromN.output, .toNode master⟩) ⟨fromN.output, .toNode inp⟩ := by
      simp [mem_cEdge]
    by_cases hc : toN.isAudiblePreference = true ∧ toN.outgoingSignalConnections = [] <;>
      simp [nodeOutput, hfn, hc, mem_cEdge, mem_dEdge, hne', h1]
  · rfl
  · simp [nodeModGains, aget_aset, Ne.symm hne, hfn]
  · intro e he hp
    obtain ⟨p, hp⟩ := hp
    have hEB : e ≠ (⟨toN.output, .toNode master⟩ : Edge) := by
      intro hc2
      rw [hc2] at hp
      simp at hp
    have hEI : e ≠ (⟨fromN.output, .toNode inp⟩ : Edge) := by
      intro hc2
      rw [hc2] at hp
      simp at hp
    have h1 : e ∈ cEdge (dEdge s.edges ⟨fromN.output, .toNode master⟩)
        ⟨fromN.output, .toNode inp⟩ := by
      by_cases hc : toN.isAudiblePreference = true ∧ toN.outgoingSignalConnections = [] <;>
        simp [hc, mem_cEdge, mem_dEdge, hEB] at he <;>
        simp [mem_cEdge, mem_dEdge] <;> tauto
    rcases mem_cEdge.mp h1 with h2 | h2
    · exact (mem_dEdge.mp h2).1
    · exact absurd h2 hEI

theorem disconnectNodes_input_eq (s : EngineState) (fromId toId : String)
    (fromN toN : NodeRec) (inp : Ref)
    (hfn : aget s.nodes fromId = some fromN)
    (htn : aget s.nodes toId = some toN)
    (hti : toN.input = some inp) :
    disconnectNodes s fromId toId =
      updateAudible
        { s with
          nodes := aset s.nodes fromId
            { fromN with outgoingSignalConnections := sdel fromN.outgoingSignalConnections toId },
          edges := dEdge s.edges ⟨fromN.output, .toNode inp⟩ }
        fromId fromN.isAudiblePreference := by
  simp only [disconnectNodes, hfn, htn, hti]

theorem connectNodes_freq_eq (s : EngineState) (fromId toId : String)
    (fromN toN : NodeRec) (p : Ref)
    (hfn : aget s.nodes fromId = some fromN)
    (htn : aget s.nodes toId = some toN)
    (hti : toN.input = none)
    (hfreq : aget toN.params "frequency" = some (.ap p)) :
    connectNodes s fromId toId =
      { s with
        nextRef := s.nextRef + 1 + 1
        kinds := s.kinds ++ [(s.nextRef, .gain)] ++ [(s.nextRef + 1, .param)]
        paramVals := aset s.paramVals (s.nextRef + 1) 400
        sched := s.sched ++ [SchedCall.setValueAtTime (s.nextRef + 1) 400 s.now]
        edges := cEdge (cEdge s.edges ⟨fromN.output, .toNode s.nextRef⟩)
          ⟨s.nextRef, .toParam p⟩
        nodes := aset s.nodes fromId
          { fromN with modGains := aset fromN.modGains toId s.nextRef } } := by
  simp only [connectNodes, hfn, htn, hti, hfreq, alloc, pset]

theorem connectNodes_nofreq_eq (s : EngineState) (fromId toId : String)
    (fromN toN : NodeRec)
    (hfn : aget s.nodes fromId = some fromN)
    (htn : aget s.nodes toId = some toN)
    (hti : toN.input = none)
    (hfreq : ∀ p, aget toN.params "frequency" ≠ some (.ap p)) :
    connectNodes s fromId toId = s := by
  cases hq : aget toN.params "frequency" with
  | none => simp only [connectNodes, hfn, htn, hti, hq]
  | some slot =>
    cases slot with
    | ap p => exact absurd hq (hfreq p)
    | lit p => simp only [connectNodes, hfn, htn, hti, hq]

theorem disconnectNodes_mod_eq (s : EngineState) (fromId toId : String)
    (fromN toN : NodeRec) (m : Ref)
    (hfn : aget s.nodes fromId = some fromN)
    (htn : aget s.nodes toId = some toN)
    (hti : toN.input = none)
    (hm : aget fromN.modGains toId = some m) :
    disconnectNodes s fromId toId =
      { s with
        edges := if (⟨fromN.output, .toNode m⟩ : Edge) ∈ s.edges
                 then dAll (dEdge s.edges ⟨fromN.output, .toNode m⟩) m
                 else s.edges
        nodes := aset s.nodes fromId { fromN with modGains := adel fromN.modGains toId } } := by
  by_cases hc : (⟨fromN.output, .toNode m⟩ : Edge) ∈ s.edges <;>
    simp only [disconnectNodes, hfn, htn, hti, hm, hc, if_true, if_false]

theorem disconnectNodes_nomod_eq (s : EngineState) (fromId toId : String)
    (fromN toN : NodeRec)
    (hfn : aget s.nodes fromId = some fromN)
    (htn : aget s.nodes toId = some toN)
    (hti : toN.input = none)
    (hm : aget fromN.modGains toId = none) :
    disconnectNodes s fromId toId = s := by
  simp only [disconnectNodes, hfn, htn, hti, hm]

/-- Witness for `C2_amended` at a concrete input (`sceneG2`, a non-audible
sine generator connected into a lowpass processor). -/
theorem C2_amended_witness :
    ("g2" ≠ "p1" ∧ (aget sceneG2.nodes "g2").isSome ∧
      nodeInput sceneG2 "p1" = some 7 ∧ (7 : Ref) ≠ master) ∧
    ((⟨nodeOutput sceneG2 "g2", .toNode 7⟩ : Edge) ∈ (connectNodes sceneG2 "g2" "p1").edges ∧
      (connectNodes sceneG2 "g2" "p1").nextRef = sceneG2.nextRef ∧
      nodeModGains (connectNodes sceneG2 "g2" "p1") "g2" = nodeModGains sceneG2 "g2" ∧
      (∀ e ∈ (connectNodes sceneG2 "g2" "p1").edges,
        (∃ p, e.dst = Dest.toParam p) → e ∈ sceneG2.edges)) :=
  ⟨⟨by decide, by decide, by decide, by decide⟩,
    C2_amended sceneG2 "g2" "p1" 7 (by decide) (by decide) (by decide) (by decide)⟩

theorem finishOscillator_edges_mem (s : EngineState) (id : String) (mainRef g : Ref)
    (params : List (String × ParamSlot)) (b : Bool) (e : Edge)
    (he : e ∈ s.edges) (hg : e.src ≠ g) :
    e ∈ (finishOscillator s id mainRef g params b).edges := by
  unfold finishOscillator
  rw [updateAudible_eq _ id b _ (aget_aset_self _ _ _)]
  rw [mem_masterToggle_of_ne _ (fun hc => hg (congrArg Edge.src hc))]
  exact mem_cEdge.mpr (Or.inl he)

theorem finishOscillator_nodes (s : EngineState) (id : String) (mainRef g : Ref)
    (params : List (String × ParamSlot)) (b : Bool) :
    aget (finishOscillator s id mainRef g params b).nodes id = some
      { main := mainRef, input := none, output := g, params := params
        modGains := [], extraNodes := [], outgoingSignalConnections := []
        isAudiblePreference := b } := by
  unfold finishOscillator
  rw [updateAudible_eq _ id b _ (aget_aset_self _ _ _)]
  simp [aget_aset]

theorem finishOscillator_running (s : EngineState) (id : String) (mainRef g : Ref)
    (params : List (String × ParamSlot)) (b : Bool) :
    (finishOscillator s id mainRef g params b).running = s.running := by
  unfold finishOscillator
  rw [updateAudible_eq _ id b _ (aget_aset_self _ _ _)]

theorem createOscillator_edges_mem (s : EngineState) (id : String) (ty : OscType)
    (f g : ℚ) (b : Bool) (e : Edge) (he : e ∈ s.edges) (hsrc : e.src < s.nextRef) :
    e ∈ (createOscillator s id ty f g b).edges := by
  cases ty <;>
    simp only [createOscillator, alloc, pset] <;>
    exact finishOscillator_edges_mem _ _ _ _ _ _ _ he (Nat.ne_of_lt hsrc)

theorem createOscillator_running_mem (s : EngineState) (id : String) (ty : OscType)
    (f g : ℚ) (b : Bool) (x : Ref) (hx : x ∈ s.running) :
    x ∈ (createOscillator s id ty f g b).running := by
  cases ty <;>
    simp only [createOscillator, alloc, pset] <;>
    rw [finishOscillator_running] <;>
    simp [hx]

theorem createOscillator_nodes (s : EngineState) (id : String) (ty : OscType)
    (f g : ℚ) (b : Bool) :
    ∃ n', aget (createOscillator s id ty f g b).nodes id = some n' ∧
      n'.output = s.nextRef ∧ n'.main = s.nextRef + 1 + 1 := by
  cases ty <;>
    simp only [createOscillator, alloc, pset] <;>
    exact ⟨_, finishOscillator_nodes _ _ _ _ _ _, rfl, rfl⟩

theorem createEffect_edges_mem (s : EngineState) (id : String) (ft : FxType)
    (e : Edge) (he : e ∈ s.edges) :
    e ∈ (createEffect s id ft).edges := by
  cases ft <;>
    simp only [createEffect, alloc, pset] <;>
    simp [mem_cEdge, he]

theorem createEffect_running_mem (s : EngineState) (id : String) (ft : FxType)
    (x : Ref) (hx : x ∈ s.running) :
    x ∈ (createEffect s id ft).running := by
  cases ft <;>
    simp only [createEffect, alloc, pset] <;>
    simp [hx]

theorem createEffect_nodes (s : EngineState) (id : String) (ft : FxType) :
    ∃ n', aget (createEffect s id ft).nodes id = some n' ∧
      n'.main = s.nextRef ∧ s.nextRef ≤ n'.output := by
  cases ft <;> simp only [createEffect, alloc, pset] <;>
    exact ⟨_, aget_aset_self _ _ _, rfl, by
      simp
      try exact Nat.le_succ_of_le (Nat.le_succ_of_le (Nat.le_succ_of_le (Nat.le_succ _)))⟩

/-! ### Claim C3 -/

/-- **C3, counterexample.**  `connect(A,B)` immediately followed by
`disconnect(A,B)` does **not** always restore A's master-link state: for the
fresh delay processor `a` (never master-linked, although `audible = true`
and no outgoing edges, cf. C1) the disconnect step re-evaluates `a` with
`updateAudible` and wires it to the master bus, so the pair changes `a`'s
master-link state from `false` to `true`. -/
theorem C3_counterexample :
    masterLinked sceneFx "a" = false ∧
    nodeAudible sceneFx "a" = true ∧
    nodeOutgoing sceneFx "a" = [] ∧
    masterLinked sceneFxPair "a" = true := by
  decide

/-- **C3, amended.**  If before the pair the source satisfied the
master-link equation (`masterLinked = audible && outgoing empty`), was not
yet connected to the target, and had no modulation element recorded for it,
then `connect(A,B); disconnect(A,B)` restores every registry entry exactly,
restores A's master-link state, and leaves no modulation-scaling edge into
any of B's parameters that was not already there before (in particular,
when none existed before, zero remain). -/
theorem C3_amended (s : EngineState) (fromId toId : String)
    (hne : fromId ≠ toId)
    (hf : (aget s.nodes fromId).isSome)
    (ht : (aget s.nodes toId).isSome)
    (hinv : masterLinked s fromId = (nodeAudible s fromId && (nodeOutgoing s fromId).isEmpty))
    (hout : toId ∉ nodeOutgoing s fromId)
    (hmod : aget (nodeModGains s fromId) toId = none)
    (hb : refsBounded s) :
    (∀ q, aget (disconnectNodes (connectNodes s fromId toId) fromId toId).nodes q
        = aget s.nodes q) ∧
    masterLinked (disconnectNodes (connectNodes s fromId toId) fromId toId) fromId
        = masterLinked s fromId ∧
    (∀ e ∈ (disconnectNodes (connectNodes s fromId toId) fromId toId).edges,
        drivesParamOf s toId e → e ∈ s.edges) := by
  obtain ⟨A, hA⟩ := Option.isSome_iff_exists.mp hf
  obtain ⟨B, hB⟩ := Option.isSome_iff_exists.mp ht
  have houtA : toId ∉ A.outgoingSignalConnections := by
    simpa [nodeOutgoing, hA] using hout
  have hmodA : aget A.modGains toId = none := by
    simpa [nodeModGains, hA] using hmod
  have hinvA : masterLinked s fromId
      = (A.isAudiblePreference && A.outgoingSignalConnections.isEmpty) := by
    rw [hinv]
    simp [nodeAudible, nodeOutgoing, hA]
  cases hBi : B.input with
  | some inp =>
    have htaB : aget (aset s.nodes fromId
        { A with outgoingSignalConnections := sadd A.outgoingSignalConnections toId })
        toId = some B := (aget_aset_ne s.nodes _ hne).trans hB
    rw [connectNodes_input_eq s fromId toId A B inp hA hB hBi,
        updateAudible_eq _ toId B.isAudiblePreference B htaB]
    simp only [show ({ B with isAudiblePreference := B.isAudiblePreference } : NodeRec) = B
      from rfl]
    have hfC : aget (aset (aset s.nodes fromId
        { A with outgoingSignalConnections := sadd A.outgoingSignalConnections toId })
        toId B) fromId
        = some { A with outgoingSignalConnections := sadd A.outgoingSignalConnections toId } :=
      (aget_aset_ne _ _ (Ne.symm hne)).trans (aget_aset_self _ _ _)
    have htC : aget (aset (aset s.nodes fromId
        { A with outgoingSignalConnections := sadd A.outgoingSignalConnections toId })
        toId B) toId = some B := aget_aset_self _ _ _
    rw [disconnectNodes_input_eq _ fromId toId
        { A with outgoingSignalConnections := sadd A.outgoingSignalConnections toId }
        B inp hfC htC hBi]
    simp only [sdel_sadd houtA]
    have hfC2 : aget (aset (aset (aset s.nodes fromId
        { A with outgoingSignalConnections := sadd A.outgoingSignalConnections toId })
        toId B) fromId A) fromId = some A := aget_aset_self _ _ _
    rw [updateAudible_eq _ fromId _ A hfC2]
    simp only [show ({ A with isAudiblePreference := A.isAudiblePreference } : NodeRec) = A
      from rfl]
    refine ⟨?_, ?_, ?_⟩
    · intro q
      by_cases hq1 : q = fromId
      · subst hq1
        simp [aget_aset, hA]
      · by_cases hq2 : q = toId
        · subst hq2
          simp [aget_aset, hne, hB]
        · have h1 : fromId ≠ q := fun hc => hq1 hc.symm
          have h2 : toId ≠ q := fun hc => hq2 hc.symm
          simp [aget_aset, h1, h2]
    · rw [hinvA]
      by_cases hcA : A.isAudiblePreference = true ∧ A.outgoingSignalConnections = []
      · simp [masterLinked, aget_aset, hcA, mem_cEdge, hcA.1, hcA.2]
      · simp [masterLinked, aget_aset, hcA, mem_dEdge]
        rcases Decidable.not_and_iff_or_not.mp hcA with hv | ho
        · simp [Bool.not_eq_true] at hv
          simp [hv]
        · simp [List.isEmpty_iff, ho]
    · rintro ⟨esrc, edst⟩ he hdp
      cases edst with
      | toNode r => simp [drivesParamOf] at hdp
      | toParam p =>
        have h1 : (⟨esrc, .toParam p⟩ : Edge) ≠ ⟨A.output, .toNode master⟩ := by simp
        have h2 : (⟨esrc, .toParam p⟩ : Edge) ≠ ⟨A.output, .toNode inp⟩ := by simp
        have h3 : (⟨esrc, .toParam p⟩ : Edge) ≠ ⟨B.output, .toNode master⟩ := by simp
        rw [mem_masterToggle_of_ne _ h1, mem_dEdge_of_ne h2,
            mem_masterToggle_of_ne _ h3, mem_cEdge_of_ne h2, mem_dEdge_of_ne h1] at he
        exact he
  | none =>
    cases hq : aget B.params "frequency" with
    | none =>
      have hfreq : ∀ p', aget B.params "frequency" ≠ some (.ap p') := by
        intro p' hc
        rw [hq] at hc
        exact Option.noConfusion hc
      rw [connectNodes_nofreq_eq s fromId toId A B hA hB hBi hfreq,
          disconnectNodes_nomod_eq s fromId toId A B hA hB hBi hmodA]
      exact ⟨fun q => rfl, rfl, fun e he _ => he⟩
    | some slot =>
      cases slot with
      | lit p =>
        have hfreq : ∀ p', aget B.params "frequency" ≠ some (.ap p') := by
          intro p' hc
          rw [hq] at hc
          simp at hc
        rw [connectNodes_nofreq_eq s fromId toId A B hA hB hBi hfreq,
            disconnectNodes_nomod_eq s fromId toId A B hA hB hBi hmodA]
        exact ⟨fun q => rfl, rfl, fun e he _ => he⟩
      | ap p =>
        rw [connectNodes_freq_eq s fromId toId A B p hA hB hBi hq]
        have hfC : aget (aset s.nodes fromId
            { A with modGains := aset A.modGains toId s.nextRef }) fromId
            = some { A with modGains := aset A.modGains toId s.nextRef } :=
          aget_aset_self _ _ _
        have htC : aget (aset s.nodes fromId
            { A with modGains := aset A.modGains toId s.nextRef }) toId = some B :=
          (aget_aset_ne s.nodes _ hne).trans hB
        have hmC : aget (aset A.modGains toId s.nextRef) toId = some s.nextRef :=
          aget_aset_self _ _ _
        rw [disconnectNodes_mod_eq _ fromId toId
            { A with modGains := aset A.modGains toId s.nextRef } B s.nextRef hfC htC hBi hmC]
        have hnm1 : (⟨A.output, .toNode s.nextRef⟩ : Edge) ∉ s.edges := by
          intro hc
          have h2 := (hb _ hc).2
          simp [Dest.ref] at h2
        have hnm2 : (⟨s.nextRef, .toParam p⟩ : Edge)
            ∉ cEdge s.edges ⟨A.output, .toNode s.nextRef⟩ := by
          intro hc
          rcases mem_cEdge.mp hc with h | h
          · have h1 := (hb _ h).1
            simp at h1
          · simp at h
        rw [cEdge_of_not_mem hnm1, cEdge_of_not_mem (by rw [cEdge_of_not_mem hnm1] at hnm2; exact hnm2)]
        have hin : (⟨A.output, .toNode s.nextRef⟩ : Edge)
            ∈ s.edges ++ [⟨A.output, .toNode s.nextRef⟩] ++ [⟨s.nextRef, .toParam p⟩] := by
          simp
        rw [if_pos hin]
        have hce : dAll (dEdge (s.edges ++ [⟨A.output, .toNode s.nextRef⟩]
            ++ [⟨s.nextRef, .toParam p⟩]) ⟨A.output, .toNode s.nextRef⟩) s.nextRef
            = s.edges := by
          rw [dEdge_append, dEdge_append, dEdge_of_not_mem hnm1]
          have e1 : dEdge [(⟨A.output, .toNode s.nextRef⟩ : Edge)]
              ⟨A.output, .toNode s.nextRef⟩ = [] := by simp [dEdge]
          have e2 : dEdge [(⟨s.nextRef, .toParam p⟩ : Edge)]
              ⟨A.output, .toNode s.nextRef⟩ = [⟨s.nextRef, .toParam p⟩] := by simp [dEdge]
          rw [e1, e2, List.append_nil, dAll_append]
          have e3 : dAll [(⟨s.nextRef, .toParam p⟩ : Edge)] s.nextRef = [] := by simp [dAll]
          have e4 : dAll s.edges s.nextRef = s.edges :=
            dAll_of_src_ne (fun e he => Nat.ne_of_lt (hb e he).1)
          rw [e3, e4, List.append_nil]
        rw [hce]
        have hmg : adel (aset A.modGains toId s.nextRef) toId = A.modGains := by
          rw [aset_of_aget_none hmodA, adel_append_of_aget_none hmodA]
        simp only [hmg]
        simp only [show ∀ X : List (String × Ref),
          ({ { A with modGains := X } with modGains := A.modGains } : NodeRec)
            = A from fun X => rfl]
        refine ⟨?_, ?_, ?_⟩
        · intro q
          by_cases hq1 : q = fromId
          · subst hq1
            simp [aget_aset, hA]
          · have h1 : fromId ≠ q := fun hc => hq1 hc.symm
            simp [aget_aset, h1]
        · simp [masterLinked, aget_aset, hA]
        · intro e he _
          exact he

/-- Witness for `C3_amended` at a concrete input (§8 scenario: G1 sine
audible, P1 lowpass). -/
theorem C3_amended_witness :
    ("g1" ≠ "p1" ∧ (aget sceneP1.nodes "g1").isSome ∧ (aget sceneP1.nodes "p1").isSome ∧
      masterLinked sceneP1 "g1"
        = (nodeAudible sceneP1 "g1" && (nodeOutgoing sceneP1 "g1").isEmpty) ∧
      "p1" ∉ nodeOutgoing sceneP1 "g1" ∧
      aget (nodeModGains sceneP1 "g1") "p1" = none ∧
      refsBounded sceneP1) ∧
    ((∀ q, aget (disconnectNodes (connectNodes sceneP1 "g1" "p1") "g1" "p1").nodes q
        = aget sceneP1.nodes q) ∧
      masterLinked (disconnectNodes (connectNodes sceneP1 "g1" "p1") "g1" "p1") "g1"
        = masterLinked sceneP1 "g1" ∧
      (∀ e ∈ (disconnectNodes (connectNodes sceneP1 "g1" "p1") "g1" "p1").edges,
        drivesParamOf sceneP1 "p1" e → e ∈ sceneP1.edges)) :=
  ⟨⟨by decide, by decide, by decide, by decide, by decide, by decide, by decide⟩,
    C3_amended sceneP1 "g1" "p1" (by decide) (by decide) (by decide) (by decide)
      (by decide) (by decide) (by decide)⟩

/-! ### Claim C4 -/

/-- **C4, counterexample.**  Toggling `audible` off on `G1` while the audio
edge `G1 → P1` exists does **not** turn that edge into a modulation edge:
the direct wire into `P1`'s input survives, no parameter of `P1` is driven
afterwards, and the outgoing record is untouched. -/
theorem C4_counterexample :
    nodeAudible sceneToggle "g1" = false ∧
    (⟨nodeOutput sceneToggle "g1", .toNode (nodeInput sceneToggle "p1").iget⟩ : Edge)
      ∈ sceneToggle.edges ∧
    (∀ e ∈ sceneToggle.edges, ¬ drivesParamOf sceneToggle "p1" e) ∧
    nodeOutgoing sceneToggle "g1" = nodeOutgoing sceneConn "g1" := by
  decide

/-- **C4, amended.**  `setAudible(id, v)` only stores the flag and
re-evaluates the node's own master-link membership; it never disconnects or
reconnects an outgoing edge.  Every edge that does not point at the master
bus is preserved verbatim (in particular every audio wire and every
modulation wire keeps its physical kind), every edge not sourced at the
node's output is preserved, every other node's registry entry is untouched,
and the node's outgoing set and modulation map are unchanged. -/
theorem C4_amended (s : EngineState) (id : String) (v : Bool)
    (h : (aget s.nodes id).isSome) :
    nodeAudible (updateAudible s id v) id = v ∧
    nodeOutgoing (updateAudible s id v) id = nodeOutgoing s id ∧
    nodeModGains (updateAudible s id v) id = nodeModGains s id ∧
    (∀ q, q ≠ id → aget (updateAudible s id v).nodes q = aget s.nodes q) ∧
    (∀ e : Edge, e.dst ≠ Dest.toNode master →
      (e ∈ (updateAudible s id v).edges ↔ e ∈ s.edges)) ∧
    (∀ e : Edge, e.src ≠ nodeOutput s id →
      (e ∈ (updateAudible s id v).edges ↔ e ∈ s.edges)) := by
  obtain ⟨n, hn⟩ := Option.isSome_iff_exists.mp h
  rw [updateAudible_eq s id v n hn]
  refine ⟨?_, ?_, ?_, ?_, ?_, ?_⟩
  · simp [nodeAudible, aget_aset_self]
  · simp [nodeOutgoing, aget_aset_self, hn]
  · simp [nodeModGains, aget_aset_self, hn]
  · intro q hq
    simpa using aget_aset_ne s.nodes (q := q) _ (fun hc => hq hc.symm)
  · intro e he
    have hne : e ≠ (⟨n.output, .toNode master⟩ : Edge) := by
      intro hc
      rw [hc] at he
      exact he rfl
    by_cases hc : v = true ∧ n.outgoingSignalConnections = [] <;>
      simp [hc, mem_cEdge, mem_dEdge, hne]
  · intro e he
    have hne : e ≠ (⟨n.output, .toNode master⟩ : Edge) := by
      intro hc
      rw [hc] at he
      simp [nodeOutput, hn] at he
    by_cases hc : v = true ∧ n.outgoingSignalConnections = [] <;>
      simp [hc, mem_cEdge, mem_dEdge, hne]

/-- Witness for `C4_amended` at a concrete input. -/
theorem C4_amended_witness :
    (aget sceneConn.nodes "g1").isSome = true ∧
    (nodeAudible (updateAudible sceneConn "g1" false) "g1" = false ∧
      nodeOutgoing (updateAudible sceneConn "g1" false) "g1" = nodeOutgoing sceneConn "g1" ∧
      nodeModGains (updateAudible sceneConn "g1" false) "g1" = nodeModGains sceneConn "g1" ∧
      (∀ q, q ≠ "g1" → aget (updateAudible sceneConn "g1" false).nodes q = aget sceneConn.nodes q) ∧
      (∀ e : Edge, e.dst ≠ Dest.toNode master →
        (e ∈ (updateAudible sceneConn "g1" false).edges ↔ e ∈ sceneConn.edges)) ∧
      (∀ e : Edge, e.src ≠ nodeOutput sceneConn "g1" →
        (e ∈ (updateAudible sceneConn "g1" false).edges ↔ e ∈ sceneConn.edges))) :=
  ⟨by decide, C4_amended sceneConn "g1" false (by decide)⟩

/-! ### Claim C6 -/

/-- **C6, counterexample.**  `removeNode("p1")` while the edge `G1 → P1`
exists drops `p1` from the registry, but does **not** remove the edge record
from the source `g1` (its outgoing set still contains `"p1"`), does not sever
the incoming wire `g1.output → p1.input` (only connections *out of* the
removed node's refs are severed), and leaves `g1` permanently unlinked from
the master bus despite being audible with no live target. -/
theorem C6_counterexample :
    aget sceneRemove.nodes "p1" = none ∧
    nodeOutgoing sceneRemove "g1" = ["p1"] ∧
    (⟨nodeOutput sceneRemove "g1", .toNode 7⟩ : Edge) ∈ sceneRemove.edges ∧
    nodeAudible sceneRemove "g1" = true ∧
    masterLinked sceneRemove "g1" = false := by
  decide

/-- **C6, amended.**  `removeNode(id)` severs exactly the connections *out
of* the node's own output and input references, stops the node's main source
(when it has a `stop` method) and its owned LFO, and drops the registry
entry.  Everything else survives: connections *into* the node, and every
other node's registry record — including outgoing-edge records and
modulation-scaling entries that name the removed id. -/
theorem C6_amended (s : EngineState) (id : String) (n : NodeRec)
    (h : aget s.nodes id = some n) (hnd : s.running.Nodup) :
    aget (removeNode s id).nodes id = none ∧
    (∀ q, q ≠ id → aget (removeNode s id).nodes q = aget s.nodes q) ∧
    (∀ e : Edge, e ∈ (removeNode s id).edges ↔
      (e ∈ s.edges ∧ e.src ≠ n.output ∧ ∀ inp, n.input = some inp → e.src ≠ inp)) ∧
    (hasStop s.kinds n.main = true → n.main ∉ (removeNode s id).running) ∧
    (∀ lfo, aget n.extraNodes "lfo" = some lfo → lfo ∉ (removeNode s id).running) := by
  cases hni : n.input with
  | none =>
    cases hl : aget n.extraNodes "lfo" with
    | none =>
      have hrm : removeNode s id =
          if hasStop s.kinds n.main = true then
            { s with edges := dAll s.edges n.output,
                     running := s.running.erase n.main, nodes := adel s.nodes id }
          else
            { s with edges := dAll s.edges n.output, nodes := adel s.nodes id } := by
        by_cases hs : hasStop s.kinds n.main = true <;>
          simp [removeNode, h, hni, hl, hs]
      rw [hrm]
      refine ⟨?_, ?_, ?_, ?_, ?_⟩
      · simp [apply_ite EngineState.nodes, aget_adel]
      · intro q hq
        have hq2 : id ≠ q := fun hc => hq hc.symm
        simp [apply_ite EngineState.nodes, aget_adel, hq2]
      · intro e
        simp [apply_ite EngineState.edges, mem_dAll, hni]
      · intro hs
        simp only [hs, if_true]
        exact hnd.not_mem_erase
      · intro lfo hlfo
        exact Option.noConfusion hlfo
    | some lfo0 =>
      have hrm : removeNode s id =
          if hasStop s.kinds n.main = true then
            { s with edges := dAll s.edges n.output,
                     running := (s.running.erase lfo0).erase n.main, nodes := adel s.nodes id }
          else
            { s with edges := dAll s.edges n.output,
                     running := s.running.erase lfo0, nodes := adel s.nodes id } := by
        by_cases hs : hasStop s.kinds n.main = true <;>
          simp [removeNode, h, hni, hl, hs]
      rw [hrm]
      refine ⟨?_, ?_, ?_, ?_, ?_⟩
      · simp [apply_ite EngineState.nodes, aget_adel]
      · intro q hq
        have hq2 : id ≠ q := fun hc => hq hc.symm
        simp [apply_ite EngineState.nodes, aget_adel, hq2]
      · intro e
        simp [apply_ite EngineState.edges, mem_dAll, hni]
      · intro hs
        simp only [hs, if_true]
        exact (hnd.erase lfo0).not_mem_erase
      · intro lfo hlfo
        injection hlfo with he
        subst he
        intro hc
        have hmem : lfo0 ∈ s.running.erase lfo0 := by
          by_cases hs : hasStop s.kinds n.main = true
          · simp only [hs, if_true] at hc
            exact List.mem_of_mem_erase hc
          · simp only [hs, if_false] at hc
            exact hc
        exact absurd hmem hnd.not_mem_erase
  | some inp =>
    cases hl : aget n.extraNodes "lfo" with
    | none =>
      have hrm : removeNode s id =
          if hasStop s.kinds n.main = true then
            { s with edges := dAll (dAll s.edges n.output) inp,
                     running := s.running.erase n.main, nodes := adel s.nodes id }
          else
            { s with edges := dAll (dAll s.edges n.output) inp, nodes := adel s.nodes id } := by
        by_cases hs : hasStop s.kinds n.main = true <;>
          simp [removeNode, h, hni, hl, hs]
      rw [hrm]
      refine ⟨?_, ?_, ?_, ?_, ?_⟩
      · simp [apply_ite EngineState.nodes, aget_adel]
      · intro q hq
        have hq2 : id ≠ q := fun hc => hq hc.symm
        simp [apply_ite EngineState.nodes, aget_adel, hq2]
      · intro e
        simp only [apply_ite EngineState.edges, ite_self, mem_dAll, hni]
        constructor
        · rintro ⟨⟨h1, h2⟩, h3⟩
          exact ⟨h1, h2, fun i hi => by injection hi with hi; subst hi; exact h3⟩
        · rintro ⟨h1, h2, h3⟩
          exact ⟨⟨h1, h2⟩, h3 inp rfl⟩
      · intro hs
        simp only [hs, if_true]
        exact hnd.not_mem_erase
      · intro lfo hlfo
        exact Option.noConfusion hlfo
    | some lfo0 =>
      have hrm : removeNode s id =
          if hasStop s.kinds n.main = true then
            { s with edges := dAll (dAll s.edges n.output) inp,
                     running := (s.running.erase lfo0).erase n.main, nodes := adel s.nodes id }
          else
            { s with edges := dAll (dAll s.edges n.output) inp,
                     running := s.running.erase lfo0, nodes := adel s.nodes id } := by
        by_cases hs : hasStop s.kinds n.main = true <;>
          simp [removeNode, h, hni, hl, hs]
      rw [hrm]
      refine ⟨?_, ?_, ?_, ?_, ?_⟩
      · simp [apply_ite EngineState.nodes, aget_adel]
      · intro q hq
        have hq2 : id ≠ q := fun hc => hq hc.symm
        simp [apply_ite EngineState.nodes, aget_adel, hq2]
      · intro e
        simp only [apply_ite EngineState.edges, ite_self, mem_dAll, hni]
        constructor
        · rintro ⟨⟨h1, h2⟩, h3⟩
          exact ⟨h1, h2, fun i hi => by injection hi with hi; subst hi; exact h3⟩
        · rintro ⟨h1, h2, h3⟩
          exact ⟨⟨h1, h2⟩, h3 inp rfl⟩
      · intro hs
        simp only [hs, if_true]
        exact (hnd.erase lfo0).not_mem_erase
      · intro lfo hlfo
        injection hlfo with he
        subst he
        intro hc
        have hmem : lfo0 ∈ s.running.erase lfo0 := by
          by_cases hs : hasStop s.kinds n.main = true
          · simp only [hs, if_true] at hc
            exact List.mem_of_mem_erase hc
          · simp only [hs, if_false] at hc
            exact hc
        exact absurd hmem hnd.not_mem_erase

/-- Witness for `C6_amended` at a concrete input (removing `p1` while
`G1 → P1` is connected). -/
theorem C6_amended_witness :
    (aget sceneConn.nodes "p1" = some
      { main := 7, input := some 7, output := 7
        params := [("cutoff", .ap 8), ("resonance", .ap 9)]
        modGains := [], extraNodes := [], outgoingSignalConnections := []
        isAudiblePreference := true } ∧ sceneConn.running.Nodup) ∧
    (aget (removeNode sceneConn "p1").nodes "p1" = none ∧
      (∀ q, q ≠ "p1" → aget (removeNode sceneConn "p1").nodes q = aget sceneConn.nodes q) ∧
      (∀ e : Edge, e ∈ (removeNode sceneConn "p1").edges ↔
        (e ∈ sceneConn.edges ∧ e.src ≠ (7 : Ref) ∧
          ∀ inp, (some 7 : Option Ref) = some inp → e.src ≠ inp)) ∧
      (hasStop sceneConn.kinds (7 : Ref) = true → (7 : Ref) ∉ (removeNode sceneConn "p1").running) ∧
      (∀ lfo, aget ([] : List (String × Ref)) "lfo" = some lfo →
        lfo ∉ (removeNode sceneConn "p1").running)) :=
  ⟨⟨by decide, by decide⟩,
    C6_amended sceneConn "p1"
      { main := 7, input := some 7, output := 7
        params := [("cutoff", .ap 8), ("resonance", .ap 9)]
        modGains := [], extraNodes := [], outgoingSignalConnections := []
        isAudiblePreference := true }
      (by decide) (by decide)⟩

/-! ### Claim C7 -/

/-- **C7, confirmed.**  Every Core operation invoked with an id that is not
in the registry returns the state unchanged (the embedding is total, so
nothing can throw), and after `removeNode(id)` the id is never in the
registry — so any later call naming it falls under the same no-op clauses. -/
theorem C7_staleIds (s : EngineState) (id fromId toId pn : String) (v : ℚ) (b : Bool)
    (ot : OscType) (ft : FxType) (vel pan : ℚ) (st : ImpactSettings)
    (h : aget s.nodes id = none)
    (hc : aget s.nodes fromId = none ∨ aget s.nodes toId = none) :
    updateParam s id pn v = s ∧
    updateAudible s id b = s ∧
    updateOscType s id ot = s ∧
    updateEffectType s id ft = s ∧
    removeNode s id = s ∧
    triggerDisturbance s id vel pan st = s ∧
    connectNodes s fromId toId = s ∧
    disconnectNodes s fromId toId = s ∧
    (∀ (t : EngineState) (j : String), aget (removeNode t j).nodes j = none) := by
  refine ⟨?_, ?_, ?_, ?_, ?_, ?_, ?_, ?_, ?_⟩
  · simp only [updateParam, h]
  · simp only [updateAudible, h]
  · simp only [updateOscType, h]
  · simp only [updateEffectType, h]
  · simp only [removeNode, h]
  · simp only [triggerDisturbance, h]
  · rcases hc with h1 | h1
    · cases h2 : aget s.nodes toId <;> simp only [connectNodes, h1, h2]
    · cases h2 : aget s.nodes fromId <;> simp only [connectNodes, h2, h1]
  · rcases hc with h1 | h1
    · cases h2 : aget s.nodes toId <;> simp only [disconnectNodes, h1, h2]
    · cases h2 : aget s.nodes fromId <;> simp only [disconnectNodes, h2, h1]
  · intro t j
    cases hj : aget t.nodes j with
    | none =>
      simp only [removeNode, hj]
    | some n =>
      cases hni : n.input <;> cases hl : aget n.extraNodes "lfo" <;>
        simp [removeNode, hj, hni, hl, apply_ite EngineState.nodes, aget_adel]

/-- Witness for `C7_staleIds` at a concrete input (the freshly initialized
engine, whose registry is empty). -/
theorem C7_staleIds_witness :
    (aget initState.nodes "x" = none ∧
      (aget initState.nodes "x" = none ∨ aget initState.nodes "y" = none)) ∧
    (updateParam initState "x" "cutoff" 1 = initState ∧
      updateAudible initState "x" true = initState ∧
      updateOscType initState "x" .sine = initState ∧
      updateEffectType initState "x" .delay = initState ∧
      removeNode initState "x" = initState ∧
      triggerDisturbance initState "x" 5 0 ⟨true, true, true⟩ = initState ∧
      connectNodes initState "x" "y" = initState ∧
      disconnectNodes initState "x" "y" = initState ∧
      (∀ (t : EngineState) (j : String), aget (removeNode t j).nodes j = none)) :=
  ⟨⟨by decide, Or.inl (by decide)⟩,
    C7_staleIds initState "x" "x" "y" "cutoff" 1 true .sine .delay 5 0 ⟨true, true, true⟩
      (by decide) (Or.inl (by decide))⟩

/-! ### Claim C5 -/

unseal Rat.mul Rat.ofScientific Rat.inv Rat.add Rat.sub in
/-- **C5, counterexample.**  `setSubtype` does not live up to the claimed
preservation contract: re-typing the delay processor `a` (connected to `b`)
into a reverb drops the outgoing edge record entirely and reattaches
nothing (no connection leaves the rebuilt node's output); and re-typing the
generator `g` leaves the incoming modulation element (gain 22, installed by
`connect(s, g)`) wired to the **destroyed** oscillator's frequency param
(ref 10): no edge drives any parameter of the rebuilt `g` (whose params are
refs 27, 25, 28). -/
theorem C5_counterexample :
    nodeOutgoing (connectNodes sceneFx "a" "b") "a" = ["b"] ∧
    nodeOutgoing sceneFxSwap "a" = [] ∧
    (∀ e ∈ sceneFxSwap.edges, e.src ≠ nodeOutput sceneFxSwap "a") ∧
    ((⟨22, .toParam 10⟩ : Edge) ∈ sceneRichSwap.edges ∧
      aget (nodeModGains sceneRichSwap "s") "g" = some 22 ∧
      nodeParamRefs sceneRichSwap "g" = [27, 25, 28] ∧
      (∀ e ∈ sceneRichSwap.edges, ¬ drivesParamOf sceneRichSwap "g" e)) := by
  decide

unseal Rat.mul Rat.ofScientific Rat.inv Rat.add Rat.sub in
/-- **C5, amended.**  `setSubtype` on a **generator** (`updateOscType`)
preserves the current frequency and gain values and the audible flag, and
re-adds all prior outgoing edges: the outgoing-signal set and the modGains
map are carried over, the rebuilt output is wired into each audio target's
input and into each retained scaling element (whose own wire into its
target's parameter survives).  Incoming modulation elements are **not**
reattached (cf. the counterexample).  `setSubtype` on a **processor**
(`updateEffectType`) preserves nothing: the node is rebuilt with factory
defaults and no prior edge (outgoing, incoming, or modulation) is
reattached. -/
theorem C5_amended :
    aget sceneRichSwap.nodes "g" = some
      { main := 26, input := none, output := 24
        params := [("frequency", .ap 27), ("gain", .ap 25), ("detune", .ap 28)]
        modGains := [("h", 20)], extraNodes := []
        outgoingSignalConnections := ["p"], isAudiblePreference := true } ∧
    pget sceneRichSwap 27 = pget sceneRich 10 ∧
    pget sceneRichSwap 25 = pget sceneRich 8 ∧
    (⟨24, .toNode 17⟩ : Edge) ∈ sceneRichSwap.edges ∧
    (⟨24, .toNode 20⟩ : Edge) ∈ sceneRichSwap.edges ∧
    (⟨20, .toParam 15⟩ : Edge) ∈ sceneRichSwap.edges ∧
    aget sceneFxSwap.nodes "a" = some
      { main := 11, input := some 11, output := 12
        params := [("diffusion", .ap 13)]
        modGains := [], extraNodes := []
        outgoingSignalConnections := [], isAudiblePreference := true } := by
  decide

/-! ### Claim C8 -/

unseal Rat.mul Rat.ofScientific Rat.inv Rat.add Rat.sub in
/-- **C8, counterexample.**  The engine owns a **single** noise buffer and
the noise generator a single looping source — there is no pink or brown
buffer and no Voss-McCartney cascade or leaky integrator anywhere; the
node's `frequency` entry is a plain value holder (`{ value: 0 }`), and
driving it (the claimed "morph control") changes no gain whatsoever and
schedules nothing. -/
theorem C8_counterexample :
    (sceneNoise.kinds.filter (fun q => decide (q.2 = RefKind.bufferSource))).length = 1 ∧
    ¬ (sceneNoise.kinds.filter (fun q => decide (q.2 = RefKind.bufferSource))).length = 3 ∧
    (aget sceneNoise.nodes "n").map (fun n => n.params)
      = some [("frequency", .lit 5), ("gain", .ap 3)] ∧
    pget (updateParam sceneNoise "n" "frequency" 0.7) 3 = pget sceneNoise 3 ∧
    (updateParam sceneNoise "n" "frequency" 0.7).sched = sceneNoise.sched := by
  decide

/-- **C8, amended.**  `createNoiseBuffer` precomputes one looping buffer of
uniform white noise — each sample is `rand·2 − 1 ∈ [−1, 1]` for
`rand ∈ [0, 1]` — and the noise generator owns exactly one buffer source
playing it; its `frequency` parameter is a plain value holder whose updates
set only that literal (no gain is recomputed, no crossfade exists). -/
theorem C8_amended :
    (∀ (rand : Nat → ℚ) (i : Nat), 0 ≤ rand i → rand i ≤ 1 →
      -1 ≤ noiseSample rand i ∧ noiseSample rand i ≤ 1) ∧
    (sceneNoise.kinds.filter (fun q => decide (q.2 = RefKind.bufferSource))).length = 1 ∧
    (aget sceneNoise.nodes "n").map (fun n => n.params)
      = some [("frequency", .lit 5), ("gain", .ap 3)] ∧
    (∀ v : ℚ, (updateParam sceneNoise "n" "frequency" v).paramVals
      = aset sceneNoise.paramVals 5 v) := by
  refine ⟨?_, by decide, by decide, ?_⟩
  · intro rand i h0 h1
    unfold noiseSample
    constructor <;> linarith
  · intro v
    have hn : aget sceneNoise.nodes "n" = some
        { main := 4, input := none, output := 2
          params := [("frequency", .lit 5), ("gain", .ap 3)]
          modGains := [], extraNodes := [], outgoingSignalConnections := []
          isAudiblePreference := true } := by decide
    simp [updateParam, hn, pset, aget]
    rfl

/-- Witness for `C8_amended` at concrete inputs. -/
theorem C8_amended_witness :
    ((0 : ℚ) ≤ (1 : ℚ)/2 ∧ (1 : ℚ)/2 ≤ 1 ∧
      -1 ≤ noiseSample (fun _ => (1 : ℚ)/2) 0 ∧ noiseSample (fun _ => (1 : ℚ)/2) 0 ≤ 1) ∧
    (updateParam sceneNoise "n" "frequency" ((7 : ℚ)/10)).paramVals
      = aset sceneNoise.paramVals 5 ((7 : ℚ)/10) :=
  ⟨⟨by norm_num, by norm_num,
      (C8_amended.1 (fun _ => (1 : ℚ)/2) 0 (by norm_num) (by norm_num)).1,
      (C8_amended.1 (fun _ => (1 : ℚ)/2) 0 (by norm_num) (by norm_num)).2⟩,
    C8_amended.2.2.2 ((7 : ℚ)/10)⟩

/-! ### Claim C9 -/

unseal Rat.mul Rat.ofScientific Rat.inv Rat.add Rat.sub in
/-- **C9, counterexample.**  With **every** settings flag enabled,
`triggerDisturbance` allocates exactly a panner, one noise burst
(buffer source through a highpass filter and an envelope) and one sine ping
(with its envelope): there is no stepped-square "glitch" voice (no square
oscillator is ever allocated) and no feedback-delay "echo" voice (no delay
node is ever allocated). -/
theorem C9_counterexample :
    sceneImpact.kinds.drop 7 =
      [(7, .panner (1/2) 0 (1/2)), (8, .bufferSource), (9, .filter .highpass),
        (10, .param), (11, .gain), (12, .param), (13, .osc .sine), (14, .param),
        (15, .gain), (16, .param)] ∧
    (sceneImpact.kinds.filter (fun q => decide (q.2 = RefKind.osc Wave.square))).length = 0 ∧
    (sceneImpact.kinds.filter (fun q => decide (q.2 = RefKind.delayNode))).length = 0 := by
  decide

unseal Rat.mul Rat.ofScientific Rat.inv Rat.add Rat.sub in
theorem sceneImpact_kinds_eq : sceneImpact.kinds = sceneG1.kinds ++
    [(7, .panner (1/2) 0 (1/2)), (8, .bufferSource), (9, .filter .highpass),
      (10, .param), (11, .gain), (12, .param), (13, .osc .sine), (14, .param),
      (15, .gain), (16, .param)] := by
  decide

unseal Rat.mul Rat.ofScientific Rat.inv Rat.add Rat.sub in
theorem sceneImpact_sched_eq : sceneImpact.sched = sceneG1.sched ++
    [.setValueAtTime 10 2000 0,
     .setValueAtTime 12 0 0,
     .linearRampToValueAtTime 12 (3/20) (1/200),
     .exponentialRampToValueAtTime 12 (1/1000) (1/20),
     .setValueAtTime 14 800 0,
     .exponentialRampToValueAtTime 14 80 (1/25),
     .setValueAtTime 16 0 0,
     .linearRampToValueAtTime 16 (1/10) (1/500),
     .exponentialRampToValueAtTime 16 (1/1000) (2/25),
     .cancelScheduledValues 6 0,
     .setTargetAtTime 6 (-1000) 0 (1/100),
     .setTargetAtTime 6 0 (1/20) (1/5)] := by
  decide

unseal Rat.mul Rat.ofScientific Rat.inv Rat.add Rat.sub in
theorem sceneImpact_stops_eq : sceneImpact.stopsAt = [(8, 1/10), (13, 1/10)] := by
  decide

unseal Rat.mul Rat.ofScientific Rat.inv Rat.add Rat.sub in
theorem sceneImpact_detune_rest : pget sceneImpact 6 = 0 := by
  decide

unseal Rat.mul Rat.ofScientific Rat.inv Rat.add Rat.sub in
theorem sceneImpactUp_sched_eq : sceneImpactUp.sched = sceneG1.sched ++
    [.setValueAtTime 10 5000 0,
     .setValueAtTime 12 0 0,
     .linearRampToValueAtTime 12 (3/20) (1/200),
     .exponentialRampToValueAtTime 12 (1/1000) (1/20),
     .setValueAtTime 14 2500 0,
     .exponentialRampToValueAtTime 14 250 (1/25),
     .setValueAtTime 16 0 0,
     .linearRampToValueAtTime 16 (1/10) (1/500),
     .exponentialRampToValueAtTime 16 (1/1000) (2/25),
     .cancelScheduledValues 6 0,
     .setTargetAtTime 6 1000 0 (1/100),
     .setTargetAtTime 6 0 (1/20) (1/5)] := by
  decide

unseal Rat.mul Rat.ofScientific Rat.inv Rat.add Rat.sub in
theorem sceneImpactFx_sched_eq : sceneImpactFx.sched = sceneP1.sched ++
    [.setValueAtTime 13 2000 0,
     .setValueAtTime 15 0 0,
     .linearRampToValueAtTime 15 (3/20) (1/200),
     .exponentialRampToValueAtTime 15 (1/1000) (1/20),
     .setValueAtTime 17 800 0,
     .exponentialRampToValueAtTime 17 80 (1/25),
     .setValueAtTime 19 0 0,
     .linearRampToValueAtTime 19 (1/10) (1/500),
     .exponentialRampToValueAtTime 19 (1/1000) (2/25),
     .cancelScheduledValues 8 0,
     .setTargetAtTime 8 600 0 (1/100),
     .setTargetAtTime 8 1000 (1/25) (3/20)] := by
  decide

unseal Rat.mul Rat.ofScientific Rat.inv Rat.add Rat.sub in
theorem sceneImpactFx_cutoff_rest : pget sceneImpactFx 8 = 1000 := by
  decide

unseal Rat.mul Rat.ofScientific Rat.inv Rat.add Rat.sub in
/-- **C9, amended.**  Per enabled flag, `triggerDisturbance` produces:
under `sparkTransients`, a pan-positioned equal-power panner feeding the
impact bus, a highpass-filtered noise burst (cutoff 2000 when falling,
5000 when rising) and a sine ping chirping from 800 (falling) or 2500
(rising) down to a tenth of that, both scheduled to stop 0.1 s after spawn;
under `toneSpike`, when the target has a `detune` AudioParam, an excursion
to `-velocity·200` cents decaying back to 0; under `paramFlutter`, when the
target has a `cutoff` AudioParam, an excursion of −40 % (falling) or +60 %
(rising) of the current value decaying back to the pre-impact value.  No
other voices exist. -/
theorem C9_amended :
    (sceneImpact.kinds = sceneG1.kinds ++
      [(7, .panner (1/2) 0 (1/2)), (8, .bufferSource), (9, .filter .highpass),
        (10, .param), (11, .gain), (12, .param), (13, .osc .sine), (14, .param),
        (15, .gain), (16, .param)] ∧
     sceneImpact.sched = sceneG1.sched ++
      [.setValueAtTime 10 2000 0,
       .setValueAtTime 12 0 0,
       .linearRampToValueAtTime 12 (3/20) (1/200),
       .exponentialRampToValueAtTime 12 (1/1000) (1/20),
       .setValueAtTime 14 800 0,
       .exponentialRampToValueAtTime 14 80 (1/25),
       .setValueAtTime 16 0 0,
       .linearRampToValueAtTime 16 (1/10) (1/500),
       .exponentialRampToValueAtTime 16 (1/1000) (2/25),
       .cancelScheduledValues 6 0,
       .setTargetAtTime 6 (-1000) 0 (1/100),
       .setTargetAtTime 6 0 (1/20) (1/5)] ∧
     sceneImpact.stopsAt = [(8, 1/10), (13, 1/10)] ∧
     pget sceneImpact 6 = 0) ∧
    (sceneImpactUp.sched = sceneG1.sched ++
      [.setValueAtTime 10 5000 0,
       .setValueAtTime 12 0 0,
       .linearRampToValueAtTime 12 (3/20) (1/200),
       .exponentialRampToValueAtTime 12 (1/1000) (1/20),
       .setValueAtTime 14 2500 0,
       .exponentialRampToValueAtTime 14 250 (1/25),
       .setValueAtTime 16 0 0,
       .linearRampToValueAtTime 16 (1/10) (1/500),
       .exponentialRampToValueAtTime 16 (1/1000) (2/25),
       .cancelScheduledValues 6 0,
       .setTargetAtTime 6 1000 0 (1/100),
       .setTargetAtTime 6 0 (1/20) (1/5)]) ∧
    (sceneImpactFx.sched = sceneP1.sched ++
      [.setValueAtTime 13 2000 0,
       .setValueAtTime 15 0 0,
       .linearRampToValueAtTime 15 (3/20) (1/200),
       .exponentialRampToValueAtTime 15 (1/1000) (1/20),
       .setValueAtTime 17 800 0,
       .exponentialRampToValueAtTime 17 80 (1/25),
       .setValueAtTime 19 0 0,
       .linearRampToValueAtTime 19 (1/10) (1/500),
       .exponentialRampToValueAtTime 19 (1/1000) (2/25),
       .cancelScheduledValues 8 0,
       .setTargetAtTime 8 600 0 (1/100),
       .setTargetAtTime 8 1000 (1/25) (3/20)] ∧
     pget sceneImpactFx 8 = 1000) :=
  ⟨⟨sceneImpact_kinds_eq, sceneImpact_sched_eq, sceneImpact_stops_eq, sceneImpact_detune_rest⟩,
    sceneImpactUp_sched_eq, sceneImpactFx_sched_eq, sceneImpactFx_cutoff_rest⟩

/-! ### Claim C10 -/

/-- **C10, confirmed.**  Creating a node under an id already in the registry
(`createOscillator` or `createEffect`) silently overwrites the registry
entry: every pre-existing connection survives (in particular the old node's
master-bus wire, so a master-linked node keeps sounding), every running
source stays running (the old oscillator is never stopped), and the registry
afterwards holds a record built purely of freshly allocated references — so
no later operation naming the id can reach the old node's objects. -/
theorem C10_overwrite (s : EngineState) (id : String) (old : NodeRec)
    (ty : OscType) (freq gain : ℚ) (b : Bool) (ft : FxType)
    (h : aget s.nodes id = some old)
    (hbs : refsBounded s)
    (hor : old.output < s.nextRef) (hmr : old.main < s.nextRef) :
    ((∀ e ∈ s.edges, e ∈ (createOscillator s id ty freq gain b).edges) ∧
      (old.main ∈ s.running → old.main ∈ (createOscillator s id ty freq gain b).running) ∧
      (∃ n', aget (createOscillator s id ty freq gain b).nodes id = some n' ∧
        n'.output = s.nextRef ∧ n'.output ≠ old.output) ∧
      (masterLinked s id = true →
        (⟨old.output, .toNode master⟩ : Edge) ∈ (createOscillator s id ty freq gain b).edges)) ∧
    ((∀ e ∈ s.edges, e ∈ (createEffect s id ft).edges) ∧
      (old.main ∈ s.running → old.main ∈ (createEffect s id ft).running) ∧
      (∃ n', aget (createEffect s id ft).nodes id = some n' ∧
        n'.main = s.nextRef ∧ n'.main ≠ old.main)) := by
  refine ⟨⟨?_, ?_, ?_, ?_⟩, ⟨?_, ?_, ?_⟩⟩
  · intro e he
    exact createOscillator_edges_mem s id ty freq gain b e he (hbs e he).1
  · intro hr
    exact createOscillator_running_mem s id ty freq gain b old.main hr
  · obtain ⟨n', hn', ho, _⟩ := createOscillator_nodes s id ty freq gain b
    exact ⟨n', hn', ho, by rw [ho]; exact Nat.ne_of_gt hor⟩
  · intro hml
    have hmem : (⟨old.output, .toNode master⟩ : Edge) ∈ s.edges := by
      simpa [masterLinked, h] using hml
    exact createOscillator_edges_mem s id ty freq gain b _ hmem hor
  · intro e he
    exact createEffect_edges_mem s id ft e he
  · intro hr
    exact createEffect_running_mem s id ft old.main hr
  · obtain ⟨n', hn', hm, _⟩ := createEffect_nodes s id ft
    exact ⟨n', hn', hm, by rw [hm]; exact Nat.ne_of_gt hmr⟩

/-- Witness for `C10_overwrite` at a concrete input (re-creating `g1` as a
square generator over the live sine generator `g1`). -/
theorem C10_overwrite_witness :
    (aget sceneG1.nodes "g1" = some
      { main := 4, input := none, output := 2
        params := [("frequency", .ap 5), ("gain", .ap 3), ("detune", .ap 6)]
        modGains := [], extraNodes := [], outgoingSignalConnections := []
        isAudiblePreference := true } ∧
      refsBounded sceneG1 ∧ (2 : Ref) < sceneG1.nextRef ∧ (4 : Ref) < sceneG1.nextRef) ∧
    (((∀ e ∈ sceneG1.edges, e ∈ (createOscillator sceneG1 "g1" .square 100 0.2 true).edges) ∧
      ((4 : Ref) ∈ sceneG1.running →
        (4 : Ref) ∈ (createOscillator sceneG1 "g1" .square 100 0.2 true).running) ∧
      (∃ n', aget (createOscillator sceneG1 "g1" .square 100 0.2 true).nodes "g1" = some n' ∧
        n'.output = sceneG1.nextRef ∧ n'.output ≠ (2 : Ref)) ∧
      (masterLinked sceneG1 "g1" = true →
        (⟨2, .toNode master⟩ : Edge) ∈ (createOscillator sceneG1 "g1" .square 100 0.2 true).edges)) ∧
     ((∀ e ∈ sceneG1.edges, e ∈ (createEffect sceneG1 "g1" .delay).edges) ∧
      ((4 : Ref) ∈ sceneG1.running → (4 : Ref) ∈ (createEffect sceneG1 "g1" .delay).running) ∧
      (∃ n', aget (createEffect sceneG1 "g1" .delay).nodes "g1" = some n' ∧
        n'.main = sceneG1.nextRef ∧ n'.main ≠ (4 : Ref)))) :=
  ⟨⟨by decide, by decide, by decide, by decide⟩,
    C10_overwrite sceneG1 "g1"
      { main := 4, input := none, output := 2
        params := [("frequency", .ap 5), ("gain", .ap 3), ("detune", .ap 6)]
        modGains := [], extraNodes := [], outgoingSignalConnections := []
        isAudiblePreference := true }
      .square 100 0.2 true .delay (by decide) (by decide) (by decide) (by decide)⟩

end Molecular
